import Mathlib

/-!
# NTPClient: a shallow embedding of `src/NTPClient.cpp`

The client object, the monotonic millisecond counter and the datagram
transport are modelled by one record that is threaded through every
operation.  `unsigned long` is taken 32 bits wide (the Arduino targets of
the library), so every unsigned result is reduced modulo `2 ^ 32`; `byte`
values are reduced modulo `256`; `int` values are integers.
-/

namespace NTPClient

/-! ## Constants of `NTPClient.h` and `NTPClient.cpp` -/

/-- The macro `NTP_PACKET_SIZE`. -/
def NTP_PACKET_SIZE : Nat := 48

/-- The macro `NTP_DEFAULT_LOCAL_PORT`. -/
def NTP_DEFAULT_LOCAL_PORT : Int := 1337

/-- The macro `NTP_SERVER`. -/
def NTP_SERVER : String := "pool.ntp.org"

/-- The macro `SEVENZYYEARS`: seconds between 1900-01-01 and 1970-01-01. -/
def SEVENZYYEARS : Nat := 2208988800

/-- Number of values of a 32-bit `unsigned long`. -/
def U32 : Nat := 4294967296

/-- Unsigned 32-bit subtraction `a - b`, wrapping around. -/
def sub32 (a b : Nat) : Nat := (a % U32 + U32 - b % U32) % U32

/-- Unsigned 32-bit addition `a + b`, wrapping around. -/
def add32 (a b : Nat) : Nat := (a + b) % U32

/-- Conversion of a signed `int` to `unsigned long` (value modulo `2 ^ 32`). -/
def toU32 (x : Int) : Nat := (x % 4294967296).toNat

/-- The macro `LEAP_YEAR( Y )`. -/
def LEAP_YEAR (Y : Nat) : Bool :=
  decide (Y > 0) && (Y % 4 == 0) && ((Y % 100 != 0) || (Y % 400 == 0))

/-! ## Client state and environment -/

/-- One datagram handed to the transport by `beginPacket`/`write`/`endPacket`. -/
structure Datagram where
  host : String
  port : Nat
  payload : List Nat
deriving DecidableEq

/-- The fields of `class NTPClient` together with the state of its two
collaborators: the millisecond counter and the UDP transport. -/
structure Client where
  m_udpSetup : Bool
  m_poolServerName : String
  m_port : Int
  m_timeOffset : Int
  m_updateInterval : Nat
  m_currentEpoc : Nat
  m_lastUpdate : Nat
  m_packetBuffer : List Nat
  /-- Monotonic time in milliseconds; `millis()` reads it modulo `2 ^ 32`. -/
  clock : Nat
  /-- Local port the transport listens on, `none` while it is closed. -/
  udpPort : Option Int
  /-- Datagrams sent so far, oldest first. -/
  sent : List Datagram
  /-- Number of `parsePacket` calls made so far. -/
  polls : Nat
deriving DecidableEq

/-- What the transport answers to one poll: the value of `parsePacket()` and
the bytes a following `read` would deliver. -/
structure Poll where
  cb : Int
  data : List Nat
deriving DecidableEq

/-- A behaviour of the transport: the answer to the `i`-th poll. -/
abbrev Transport := Nat → Poll

/-- The constructor `NTPClient::NTPClient`, started at counter value `clock`.
The packet buffer, which the constructor leaves unset, is taken zero-filled;
`sendNTPPacket` overwrites it before it is ever read. -/
def mk (poolServerName : String) (timeOffset : Int) (updateInterval : Nat)
    (clock : Nat) : Client :=
  { m_udpSetup := false
    m_poolServerName := poolServerName
    m_port := NTP_DEFAULT_LOCAL_PORT
    m_timeOffset := timeOffset
    m_updateInterval := updateInterval % U32
    m_currentEpoc := 0
    m_lastUpdate := 0
    m_packetBuffer := List.replicate NTP_PACKET_SIZE 0
    clock := clock
    udpPort := none
    sent := []
    polls := 0 }

/-- The Arduino call `millis()`: the counter, 32 bits wide. -/
def millis (c : Client) : Nat := c.clock % U32

/-- The Arduino call `delay( ms )`. -/
def delay (ms : Nat) (c : Client) : Client := { c with clock := c.clock + ms }

/-- The method `NTPClient::begin`; a call `begin()` passes
`NTP_DEFAULT_LOCAL_PORT`.  The `int` is stored in `m_port` as it is and
handed to `UDP::begin( uint16_t )`, which opens the port modulo `2 ^ 16`. -/
def begin (c : Client) (port : Int) : Client :=
  { c with m_port := port, udpPort := some (port % 65536), m_udpSetup := true }

/-- The method `NTPClient::end` (the word is reserved in Lean). -/
def stop (c : Client) : Client :=
  { c with udpPort := none, m_udpSetup := false }

/-! ## Packet codec -/

/-- Byte `i` of a packet buffer. -/
def byteAt (p : List Nat) (i : Nat) : Nat := p.getD i 0

/-- The method `NTPClient::isValid`. -/
def isValid (ntpPacket : List Nat) : Bool :=
  if (byteAt ntpPacket 0 &&& 0b11000000) == 0b11000000 then false
  else if ((byteAt ntpPacket 0 &&& 0b00111000) >>> 3) < 0b100 then false
  else if (byteAt ntpPacket 0 &&& 0b00000111) != 0b100 then false
  else if byteAt ntpPacket 1 < 1 || byteAt ntpPacket 1 > 15 then false
  else if byteAt ntpPacket 16 == 0 && byteAt ntpPacket 17 == 0
      && byteAt ntpPacket 18 == 0 && byteAt ntpPacket 19 == 0
      && byteAt ntpPacket 20 == 0 && byteAt ntpPacket 21 == 0
      && byteAt ntpPacket 22 == 0 && byteAt ntpPacket 22 == 0 then false
  else true

/-- The C call `memset( buf, v, n )` on a byte buffer. -/
def memset (buf : List Nat) (v n : Nat) : List Nat :=
  List.replicate n (v % 256) ++ buf.drop n

/-- The method `NTPClient::sendNTPPacket`: the request is built in
`m_packetBuffer` and handed to the transport for port 123 of the server. -/
def sendNTPPacket (c : Client) : Client :=
  let b := memset c.m_packetBuffer 0 NTP_PACKET_SIZE
  let b := b.set 0 0b11100011
  let b := b.set 1 0
  let b := b.set 2 6
  let b := b.set 3 0xEC
  let b := b.set 12 0x49
  let b := b.set 13 0x4E
  let b := b.set 14 0x49
  let b := b.set 15 0x52
  { c with
    m_packetBuffer := b
    sent := c.sent ++ [{ host := c.m_poolServerName, port := 123,
                         payload := b.take NTP_PACKET_SIZE }] }

/-- The transport call `read( buffer, len )`: at most `len` bytes of the
datagram overwrite the start of the buffer, the rest of the buffer stays. -/
def readInto (buf data : List Nat) (len : Nat) : List Nat :=
  (data.take len).map (fun b => b % 256) ++ buf.drop (min len data.length)

/-- Modelled from the spec: the Arduino core function `word( h, l )` is not
part of the repository; the spec reads bytes 40 to 43 as a big-endian
integer, so `word` joins a high and a low byte into a 16-bit value. -/
def word (h l : Nat) : Nat := (((h % 256) <<< 8) ||| (l % 256)) % 65536

/-- The NTP seconds of the Transmit Timestamp as `forceUpdate` computes them:
`highWord << 16 | lowWord` on `unsigned long`. -/
def secsSince1900 (buf : List Nat) : Nat :=
  let highWord := word (byteAt buf 40) (byteAt buf 41)
  let lowWord := word (byteAt buf 42) (byteAt buf 43)
  ((highWord <<< 16) % U32) ||| lowWord

/-! ## Synchronization controller -/

/-- One pass through the body of the `do` loop of `NTPClient::forceUpdate` up
to the timeout test: `delay( 10 )`, `parsePacket()`, and for `cb > 0` the
`read` into `m_packetBuffer` followed by `isValid`, which resets `cb` to 0
on a rejected packet.  The result is the new state and the value of `cb`. -/
def pollStep (tr : Transport) (c : Client) : Client × Int :=
  let c1 := delay 10 c
  let p := tr c1.polls
  let c2 := { c1 with polls := c1.polls + 1 }
  if p.cb > 0 then
    let c3 := { c2 with
                m_packetBuffer := readInto c2.m_packetBuffer p.data NTP_PACKET_SIZE }
    if !isValid c3.m_packetBuffer then (c3, 0) else (c3, p.cb)
  else (c2, p.cb)

/-- The `do ... while( cb == 0 )` loop of `NTPClient::forceUpdate`, entered
with the current value of the `byte timeout`.  The result is the state after
the loop, the final `timeout`, and `false` when the loop was left through
`return false`.  `none` only when the fuel is used up. -/
def pollLoop (tr : Transport) : Nat → Nat → Client → Option (Client × Nat × Bool)
  | 0, _, _ => none
  | fuel + 1, timeout, c =>
    let r := pollStep tr c
    if timeout > 100 then some (r.1, timeout, false)
    else
      let timeout1 := (timeout + 1) % 256
      if r.2 == 0 then pollLoop tr fuel timeout1 r.1
      else some (r.1, timeout1, true)

/-- The method `NTPClient::forceUpdate`. -/
def forceUpdate (tr : Transport) (c : Client) : Option (Client × Bool) :=
  match pollLoop tr 102 0 (sendNTPPacket c) with
  | none => none
  | some (c1, _, false) => some (c1, false)
  | some (c1, timeout, true) =>
    some ({ c1 with
            m_lastUpdate := sub32 (millis c1) (10 * (timeout + 1))
            m_currentEpoc := sub32 (secsSince1900 c1.m_packetBuffer) SEVENZYYEARS }, true)

/-- The method `NTPClient::update`. -/
def update (tr : Transport) (c : Client) : Option (Client × Bool) :=
  if decide (sub32 (millis c) c.m_lastUpdate ≥ c.m_updateInterval)
      || (c.m_lastUpdate == 0) then
    let c1 := if !c.m_udpSetup then begin c NTP_DEFAULT_LOCAL_PORT else c
    forceUpdate tr c1
  else some (c, true)

/-- The method `NTPClient::setTimeOffset`. -/
def setTimeOffset (c : Client) (timeOffset : Int) : Client :=
  { c with m_timeOffset := timeOffset }

/-- The method `NTPClient::setUpdateInterval`. -/
def setUpdateInterval (c : Client) (updateInterval : Nat) : Client :=
  { c with m_updateInterval := updateInterval % U32 }

/-- The method `NTPClient::setEpochTime`. -/
def setEpochTime (c : Client) (secs : Nat) : Client :=
  { c with m_currentEpoc := secs % U32 }

/-! ## Time projection -/

/-- The method `NTPClient::epochTime`. -/
def epochTime (c : Client) : Nat :=
  add32 (add32 (toU32 c.m_timeOffset) c.m_currentEpoc)
    (sub32 (millis c) c.m_lastUpdate / 1000)

/-- The method `NTPClient::hours`. -/
def hours (c : Client) : Int := (epochTime c % 86400) / 3600

/-- The method `NTPClient::minutes`. -/
def minutes (c : Client) : Int := (epochTime c % 3600) / 60

/-- The method `NTPClient::seconds`. -/
def seconds (c : Client) : Int := epochTime c % 60

/-- The table `monthDays` of `NTPClient::date`. -/
def monthDays : List Nat := [31, 28, 31, 30, 31, 30, 31, 31, 30, 31, 30, 31]

/-- The loop `while( ( days += ( LEAP_YEAR( yearInt ) ? 366 : 365 ) ) <= rawTime )
yearInt++;` of `NTPClient::date`; the result is `(days, yearInt)` on exit,
`none` only when the fuel is used up. -/
def yearLoop (rawTime : Nat) : Nat → Nat → Nat → Option (Nat × Nat)
  | 0, _, _ => none
  | fuel + 1, days, yearInt =>
    let days1 := add32 days (if LEAP_YEAR yearInt then 366 else 365)
    if days1 ≤ rawTime then yearLoop rawTime fuel days1 (add32 yearInt 1)
    else some (days1, yearInt)

/-- The loop `for( monthInt = 0; monthInt < 12; monthInt++ )` of
`NTPClient::date`; the result is `(monthInt, rawTime)` on exit, `none` only
when the fuel is used up. -/
def monthLoop (yearInt : Nat) : Nat → Nat → Nat → Option (Nat × Nat)
  | 0, _, _ => none
  | fuel + 1, monthInt, rawTime =>
    if monthInt < 12 then
      let monthLength : Nat :=
        if monthInt == 1 then (if LEAP_YEAR yearInt then 29 else 28)
        else monthDays.getD monthInt 0
      if rawTime < monthLength then some (monthInt, rawTime)
      else monthLoop yearInt fuel ((monthInt + 1) % 256) (sub32 rawTime monthLength)
    else some (monthInt, rawTime)

/-- The method `NTPClient::date` called with the three output pointers set:
the values written to `*year`, `*month` and `*day`. -/
def date (c : Client) (secs : Nat) : Option (Nat × Nat × Nat) :=
  let rawTime := (if secs != 0 then secs else epochTime c) / 86400
  match yearLoop rawTime (rawTime + 1) 0 1970 with
  | none => none
  | some (days, yearInt) =>
    let rawTime1 := sub32 rawTime (sub32 days (if LEAP_YEAR yearInt then 366 else 365))
    match monthLoop yearInt 13 0 rawTime1 with
    | none => none
    | some (monthInt, rawTime2) =>
      some (yearInt % 65536, (monthInt + 1) % 256, (rawTime2 + 1) % 256)

/-- Modelled from the spec: the Arduino class `String` is not part of the
repository; `String( n )` of an unsigned number is its decimal numeral. -/
def decimal (n : Nat) : String := toString n

/-- The method `NTPClient::formattedTime`. -/
def formattedTime (c : Client) (secs : Nat) : String :=
  let rawTime := if secs != 0 then secs else epochTime c
  let hours := (rawTime % 86400) / 3600
  let hoursStr := if hours < 10 then "0" ++ decimal hours else decimal hours
  let minutes := (rawTime % 3600) / 60
  let minuteStr := if minutes < 10 then "0" ++ decimal minutes else decimal minutes
  let seconds := rawTime % 60
  let secondStr := if seconds < 10 then "0" ++ decimal seconds else decimal seconds
  hoursStr ++ ":" ++ minuteStr ++ ":" ++ secondStr

/-- The method `NTPClient::formattedDate`; `none` only when `date` runs out
of fuel. -/
def formattedDate (c : Client) (secs : Nat) : Option String :=
  match date c secs with
  | none => none
  | some (year, month, day) =>
    let monthStr := if month < 10 then "0" ++ decimal month else decimal month
    let dayStr := if day < 10 then "0" ++ decimal day else decimal day
    some (decimal year ++ "-" ++ monthStr ++ "-" ++ dayStr ++ "T"
      ++ formattedTime c secs ++ "Z")

/-! ## Reference notions taken from the specification -/

/-- The proleptic Gregorian leap-year rule in the words of the spec:
divisible by 4, and not by 100 unless also by 400. -/
def gregorianLeap (y : Nat) : Bool :=
  (y % 4 == 0) && ((y % 100 != 0) || (y % 400 == 0))

/-- Length of month `m` (1 to 12) of year `y` in the Gregorian calendar. -/
def gregorianMonthLength (y m : Nat) : Nat :=
  if m = 2 then (if gregorianLeap y then 29 else 28)
  else if m = 4 ∨ m = 6 ∨ m = 9 ∨ m = 11 then 30
  else 31

/-- The reference days-from-civil function: the number of days from
1970-01-01 to the proleptic Gregorian date `y`-`m`-`d`. -/
def daysFromCivil (y m d : Int) : Int :=
  let y1 := if m ≤ 2 then y - 1 else y
  let era := (if y1 ≥ 0 then y1 else y1 - 399) / 400
  let yoe := y1 - era * 400
  let doy := (153 * (if m > 2 then m - 3 else m + 9) + 2) / 5 + d - 1
  let doe := yoe * 365 + yoe / 4 - yoe / 100 + doy
  era * 146097 + doe - 719468

/-- The four bytes of `x` in big-endian order. -/
def bigEndian4 (x : Nat) : List Nat :=
  [x / 16777216 % 256, x / 65536 % 256, x / 256 % 256, x % 256]

/-! ## Notions used in the statements -/

/-- The Leap Indicator of a packet: the top 2 bits of byte 0. -/
def leapIndicator (p : List Nat) : Nat := byteAt p 0 / 64

/-- The Version of a packet: bits 3 to 5 of byte 0. -/
def version (p : List Nat) : Nat := byteAt p 0 / 8 % 8

/-- The Mode of a packet: bits 0 to 2 of byte 0. -/
def mode (p : List Nat) : Nat := byteAt p 0 % 8

/-- The Stratum of a packet: byte 1. -/
def stratum (p : List Nat) : Nat := byteAt p 1

/-- The 8-byte Reference Timestamp of a packet: bytes 16 to 23. -/
def referenceTimestamp (p : List Nat) : List Nat := (p.drop 16).take 8

/-- Validation in the words of the spec: the Leap Indicator is not 11b, the
Version is at least 4, the Mode is 4, the Stratum is between 1 and 15, and
the Reference Timestamp is not all zero. -/
def specValid (p : List Nat) : Bool :=
  (leapIndicator p != 3) && decide (version p ≥ 4) && (mode p == 4)
    && decide (1 ≤ stratum p) && decide (stratum p ≤ 15)
    && !(referenceTimestamp p).all (fun b => b == 0)

/-- A list is a packet: `NTP_PACKET_SIZE` bytes. -/
def IsPacket (p : List Nat) : Prop := p.length = NTP_PACKET_SIZE ∧ ∀ b ∈ p, b < 256

instance (p : List Nat) : Decidable (IsPacket p) := by
  unfold IsPacket; infer_instance

/-- A server response whose header and stratum are in order and whose
Reference Timestamp is zero except for its last byte, byte 23. -/
def packetRefInByte23 : List Nat :=
  [0x24, 1] ++ List.replicate 14 0 ++ [0, 0, 0, 0, 0, 0, 0, 1] ++ List.replicate 24 0

/-- The state at true elapsed time `d` milliseconds after the counter read
`m_lastUpdate`: the counter then reads `(m_lastUpdate + d) mod 2 ^ 32`. -/
def atElapsed (c : Client) (d : Nat) : Client := { c with clock := c.m_lastUpdate + d }

/-- A client that was never synchronized and has a time offset of -5 s. -/
def clientOffsetMinus5 : Client := mk NTP_SERVER (-5) 60000 0

/-! ## Concrete packets, transports and states, and notions used in the proofs -/

/-- The request that `sendNTPPacket` builds: byte 0 is `0b11100011`, byte 2 is
6, byte 3 is `0xEC`, bytes 12 to 15 are the characters `INIR`. -/
def requestPacket : List Nat :=
  [0xE3, 0, 6, 0xEC, 0, 0, 0, 0, 0, 0, 0, 0, 0x49, 0x4E, 0x49, 0x52,
   0, 0, 0, 0, 0, 0, 0, 0, 0, 0, 0, 0, 0, 0, 0, 0,
   0, 0, 0, 0, 0, 0, 0, 0, 0, 0, 0, 0, 0, 0, 0, 0]

/-- A synchronized client with a time offset of -3600 s whose capture reading
lies 1000 ms before the wrap of the counter; the counter has wrapped since
and reads 4000, true elapsed time 5000 ms. -/
def clientWrapped : Client :=
  { mk NTP_SERVER (-3600) 60000 (4294967296 + 4000) with
    m_currentEpoc := 1700000000, m_lastUpdate := 4294966296 }

/-- The datagram that carries the request of client `c`. -/
def requestOf (c : Client) : Datagram :=
  { host := c.m_poolServerName, port := 123, payload := requestPacket }

/-- A transport that never delivers a datagram: `parsePacket()` is always 0. -/
def transportSilent : Transport := fun _ => { cb := 0, data := [] }

/-- A transport whose `parsePacket()` reports an error, -1, and delivers
nothing. -/
def transportError : Transport := fun _ => { cb := -1, data := [] }

/-- A well-formed server response (Leap Indicator 0, Version 4, Mode 4,
Stratum 1, non-zero Reference Timestamp) whose Transmit Timestamp holds the
NTP seconds `ntpSecs`. -/
def responsePacket (ntpSecs : Nat) : List Nat :=
  [0x24, 1] ++ List.replicate 14 0 ++ [1, 2, 3, 4, 5, 6, 7, 8] ++ List.replicate 16 0
    ++ bigEndian4 ntpSecs ++ [0, 0, 0, 0]

/-- A transport that answers the first poll with `responsePacket ntpSecs` and
stays silent afterwards. -/
def transportOnce (ntpSecs : Nat) : Transport := fun i =>
  if i = 0 then { cb := 48, data := responsePacket ntpSecs } else { cb := 0, data := [] }

/-- A client synchronized to epoch 1700000000 at counter reading 500, now at
counter reading 1000. -/
def clientSynced : Client :=
  { mk NTP_SERVER 0 60000 1000 with m_currentEpoc := 1700000000, m_lastUpdate := 500 }

/-- The state `forceUpdate` leaves when `clientSynced` receives, on the first
poll, a response whose Transmit Timestamp is 2208988800. -/
def clientAtEpoch0 : Client :=
  { sendNTPPacket clientSynced with
    clock := 1010, polls := 1, m_lastUpdate := 990, m_currentEpoc := 0,
    m_packetBuffer := responsePacket SEVENZYYEARS }

/-- The test of `update`: the elapsed time has reached the interval, or
`m_lastUpdate` is 0. -/
def updateDue (c : Client) : Prop :=
  c.m_updateInterval ≤ sub32 (millis c) c.m_lastUpdate ∨ c.m_lastUpdate = 0

instance (c : Client) : Decidable (updateDue c) := by
  unfold updateDue; infer_instance

/-- A fresh client on which `setEpochTime( 1700000000 )` was called at counter
reading 5000: `m_currentEpoc` is set, `m_lastUpdate` is still 0. -/
def clientSeeded : Client := setEpochTime (mk NTP_SERVER 0 60000 5000) 1700000000

/-- A fresh client with an update interval of 60000 ms, at counter reading
1000. -/
def clientFresh : Client := mk NTP_SERVER 0 60000 1000

/-- The state after the first `update()` of `clientFresh` when the first poll
delivers a response for epoch 1700000000. -/
def clientFirstSync : Client :=
  { sendNTPPacket (begin clientFresh NTP_DEFAULT_LOCAL_PORT) with
    clock := 1010, polls := 1, m_lastUpdate := 990, m_currentEpoc := 1700000000,
    m_packetBuffer := responsePacket (1700000000 + SEVENZYYEARS) }

/-- Days from 1970-01-01 to the first day of year `y`, for `y ≥ 1970`. -/
def daysBeforeYear (y : Nat) : Nat :=
  365 * (y - 1970) + ((y - 1) / 4 - (y - 1) / 100 + (y - 1) / 400) - 477

/-- Days from the first day of a year to the first day of its month with
index `monthInt` (0 to 11). -/
def daysBeforeMonth (leap : Bool) (monthInt : Nat) : Nat :=
  [0, 31, 59, 90, 120, 151, 181, 212, 243, 273, 304, 334].getD monthInt 0
    + (if leap && decide (2 ≤ monthInt) then 1 else 0)

/-- A year with the leap status `leap`: 1972 or 1970. -/
def sampleYear (leap : Bool) : Nat := if leap then 1972 else 1970

/-- The month loop, entered on day `doy` of a year with leap status `leap`,
ends on a month index below 12 and a day within that month, and the days
before that month plus the day give back `doy`. -/
def monthLoopOk (leap : Bool) (doy : Nat) : Bool :=
  match monthLoop (sampleYear leap) 13 0 doy with
  | some (monthInt, r) =>
    decide (monthInt < 12) && (daysBeforeMonth leap monthInt + r == doy)
      && decide (r < gregorianMonthLength (sampleYear leap) (monthInt + 1))
  | none => false

/-- The decimal digit `d` as a character. -/
def digit (d : Nat) : Char := Char.ofNat (48 + d % 10)

/-- The two-digit, zero-padded numeral of `n`. -/
def twoDigits (n : Nat) : String := String.mk [digit (n / 10), digit n]

/-- The four-digit, zero-padded numeral of `n`. -/
def fourDigits (n : Nat) : String :=
  String.mk [digit (n / 1000), digit (n / 100), digit (n / 10), digit n]

/-- The state `clientSynced` read 5000 ms after its capture reading 500. -/
def clientLate : Client := { clientSynced with clock := 5500 }

/-- The state after `n` passes through the body of the polling loop, started
in state `c`. -/
def afterPolls (tr : Transport) : Nat → Client → Client
  | 0, c => c
  | n + 1, c => afterPolls tr n (pollStep tr c).1

/-- Pass `j + 1` of the polling loop entered in state `c` leaves a buffer
that passes `isValid`: `parsePacket()` is positive and the buffer, once the
datagram is read into it, is accepted. -/
def delivers (tr : Transport) (c : Client) (j : Nat) : Prop :=
  0 < (tr (afterPolls tr j c).polls).cb
    ∧ isValid (readInto (afterPolls tr j c).m_packetBuffer
        (tr (afterPolls tr j c).polls).data NTP_PACKET_SIZE) = true

instance (tr : Transport) (c : Client) (j : Nat) : Decidable (delivers tr c j) := by
  unfold delivers; infer_instance

/-- A transport that echoes the request of the client on every poll. -/
def transportEcho : Transport := fun _ => { cb := 48, data := requestPacket }

/-- A transport that echoes the request on the first poll, stays silent on
the second and delivers `responsePacket ntpSecs` on the third. -/
def transportThird (ntpSecs : Nat) : Transport := fun i =>
  if i = 0 then { cb := 48, data := requestPacket }
  else if i = 2 then { cb := 48, data := responsePacket ntpSecs }
  else { cb := 0, data := [] }

/-- A transport that is silent except on poll `n + 1`, where it delivers
`responsePacket ntpSecs`. -/
def transportAt (n ntpSecs : Nat) : Transport := fun i =>
  if i = n then { cb := 48, data := responsePacket ntpSecs } else { cb := 0, data := [] }

/-- A 48-byte response for epoch 1234567890 from a server that is not
synchronized: byte 0 is `0xE4`, Leap Indicator 11b, Version 4, Mode 4. -/
def packetUnsynchronized : List Nat :=
  (responsePacket (1234567890 + SEVENZYYEARS)).set 0 0xE4

/-- A datagram of two bytes: a header byte with Leap Indicator 0, Version 4,
Mode 4, and Stratum 1. -/
def datagramShort : List Nat := [0x24, 1]

/-- A transport that delivers `packetUnsynchronized` on the first poll, the
two bytes of `datagramShort` on the second, and nothing afterwards. -/
def transportShort : Transport := fun i =>
  if i = 0 then { cb := 48, data := packetUnsynchronized }
  else if i = 1 then { cb := 2, data := datagramShort }
  else { cb := 0, data := [] }

/-! ## Packet codec: validation and request -/

set_option maxRecDepth 100000 in
theorem byte_fields (b : Nat) (hb : b < 256) :
    ((b &&& 0b11000000) == 0b11000000) = (b / 64 == 3)
    ∧ (b &&& 0b00111000) >>> 3 = b / 8 % 8
    ∧ b &&& 0b00000111 = b % 8 := by
  revert b
  decide

/-- What `isValid` really tests: the five conditions, the last one on bytes
16 to 22 only. -/
theorem isValid_iff (p : List Nat) (h0 : byteAt p 0 < 256) :
    isValid p = true ↔
      leapIndicator p ≠ 3 ∧ version p ≥ 4 ∧ mode p = 4
      ∧ 1 ≤ stratum p ∧ stratum p ≤ 15
      ∧ ¬ (byteAt p 16 = 0 ∧ byteAt p 17 = 0 ∧ byteAt p 18 = 0 ∧ byteAt p 19 = 0
          ∧ byteAt p 20 = 0 ∧ byteAt p 21 = 0 ∧ byteAt p 22 = 0) := by
  obtain ⟨h1, h2, h3⟩ := byte_fields _ h0
  unfold isValid leapIndicator version mode stratum
  rw [h1, h2, h3]
  simp only [beq_iff_eq, bne_iff_ne, Bool.or_eq_true, Bool.and_eq_true, decide_eq_true_eq,
    ite_eq_left_iff, Bool.if_false_left, Bool.if_true_right, Bool.not_eq_true, ne_eq]
  by_cases a1 : byteAt p 0 / 64 = 3 <;> by_cases a2 : byteAt p 0 / 8 % 8 < 4 <;>
    by_cases a3 : byteAt p 0 % 8 = 4 <;> by_cases a4 : byteAt p 1 < 1 <;>
    by_cases a5 : byteAt p 1 > 15
  all_goals simp [a1, a2, a3, a4, a5]
  all_goals omega

/-- C1: the code departs from the claim on a packet that meets all five
conditions with a Reference Timestamp that is non-zero in byte 23 only:
`isValid` returns false although the claimed condition holds. -/
theorem isValid_rejects_timestamp_in_byte23 :
    IsPacket packetRefInByte23 ∧ specValid packetRefInByte23 = true
      ∧ referenceTimestamp packetRefInByte23 = [0, 0, 0, 0, 0, 0, 0, 1]
      ∧ isValid packetRefInByte23 = false := by
  decide

theorem sendNTPPacket_buffer (c : Client) :
    (sendNTPPacket c).m_packetBuffer = requestPacket ++ c.m_packetBuffer.drop 48 := by
  simp [sendNTPPacket, memset, NTP_PACKET_SIZE, List.replicate, requestPacket]

theorem sendNTPPacket_frame (c : Client) :
    sendNTPPacket c = { c with
      m_packetBuffer := (sendNTPPacket c).m_packetBuffer
      sent := c.sent ++ [{ host := c.m_poolServerName, port := 123, payload := requestPacket }] } := by
  have h := sendNTPPacket_buffer c
  simp only [sendNTPPacket] at h ⊢
  simp only [h]
  simp [NTP_PACKET_SIZE, requestPacket]

/-- C10, as the claim states it, fails: byte 0 of the request does not encode
Leap Indicator 0 and Version 3. -/
theorem sendNTPPacket_header_not_li0_vn3 :
    ¬ (leapIndicator (sendNTPPacket (mk NTP_SERVER 0 60000 0)).m_packetBuffer = 0
        ∧ version (sendNTPPacket (mk NTP_SERVER 0 60000 0)).m_packetBuffer = 3
        ∧ mode (sendNTPPacket (mk NTP_SERVER 0 60000 0)).m_packetBuffer = 3) := by
  decide

/-- C10, amended: whatever the buffer held before, `sendNTPPacket` sends a
48-byte datagram, equal to the first 48 bytes of the buffer, in which byte 0
is `0xE3` (Leap Indicator 3, Version 4, Mode 3), byte 1 is 0, byte 2 is 6,
bytes 12 to 15 are the ASCII characters `INIR`, and every byte other than
bytes 0, 2, 3 and 12 to 15 is zero. -/
theorem sendNTPPacket_request (c : Client) :
    (sendNTPPacket c).sent
        = c.sent ++ [{ host := c.m_poolServerName, port := 123, payload := requestPacket }]
      ∧ (sendNTPPacket c).m_packetBuffer.take 48 = requestPacket
      ∧ requestPacket.length = 48
      ∧ leapIndicator requestPacket = 3 ∧ version requestPacket = 4 ∧ mode requestPacket = 3
      ∧ byteAt requestPacket 1 = 0 ∧ byteAt requestPacket 2 = 6
      ∧ (requestPacket.drop 12).take 4 = "INIR".toList.map Char.toNat
      ∧ ∀ i, i < 48 → i ≠ 0 → i ≠ 2 → i ≠ 3 → ¬ (12 ≤ i ∧ i ≤ 15) →
          byteAt (sendNTPPacket c).m_packetBuffer i = 0 := by
  refine ⟨?_, ?_, by decide, by decide, by decide, by decide, by decide, by decide,
    by decide, ?_⟩
  · rw [sendNTPPacket_frame]
  · rw [sendNTPPacket_buffer]
    simp [requestPacket]
  · intro i hi h0 h2 h3 h12
    rw [sendNTPPacket_buffer]
    have : byteAt (requestPacket ++ c.m_packetBuffer.drop 48) i = byteAt requestPacket i := by
      unfold byteAt
      rw [List.getD_append _ _ _ _ (by simpa [requestPacket] using hi)]
    rw [this]
    interval_cases i <;> first | rfl | omega

/-! ## Time projection -/

theorem sub32_atElapsed (c : Client) (d : Nat) (hd : d < U32) :
    sub32 (millis (atElapsed c d)) (atElapsed c d).m_lastUpdate = d := by
  simp only [sub32, millis, atElapsed, U32] at *
  omega

theorem epochTime_int (c : Client) :
    (epochTime c : Int)
      = (c.m_timeOffset + c.m_currentEpoc
          + (((millis c : Int) - c.m_lastUpdate) % 4294967296) / 1000) % 4294967296 := by
  simp only [epochTime, add32, sub32, toU32, millis, U32]
  omega

/-- C7: `epochTime()` is `timeOffset + epochSeconds + floor(elapsed / 1000)`
modulo `2 ^ 32`, where `elapsed = (now - capturedAtLocalMillis) mod 2 ^ 32`;
when the counter reads `(capturedAtLocalMillis + d) mod 2 ^ 32` for a true
elapsed time `d < 2 ^ 32` the elapsed value is `d`, also after a wrap; and a
negative `timeOffset` subtracts its absolute value. -/
theorem epochTime_formula (c : Client) :
    (epochTime c : Int)
        = (c.m_timeOffset + c.m_currentEpoc
            + (((millis c : Int) - c.m_lastUpdate) % 4294967296) / 1000) % 4294967296
      ∧ (∀ d : Nat, d < U32 → c.m_lastUpdate < U32 →
          millis c = (c.m_lastUpdate + d) % U32 →
          sub32 (millis c) c.m_lastUpdate = d
          ∧ (epochTime c : Int)
              = (c.m_timeOffset + c.m_currentEpoc + (d / 1000 : Nat)) % 4294967296)
      ∧ (c.m_timeOffset < 0 →
          c.m_timeOffset.natAbs ≤ c.m_currentEpoc + sub32 (millis c) c.m_lastUpdate / 1000 →
          c.m_currentEpoc + sub32 (millis c) c.m_lastUpdate / 1000 < U32 →
          epochTime c = c.m_currentEpoc + sub32 (millis c) c.m_lastUpdate / 1000
              - c.m_timeOffset.natAbs) := by
  refine ⟨epochTime_int c, ?_, ?_⟩
  · intro d hd hl hm
    have hs : sub32 (millis c) c.m_lastUpdate = d := by
      simp only [sub32, U32] at *
      omega
    refine ⟨hs, ?_⟩
    simp only [epochTime, add32, toU32, U32, hs]
    omega
  · intro hneg habs hlt
    simp only [epochTime, add32, toU32, U32] at *
    omega

/-- C7 at a wrapped counter: the counter reads 4000, numerically below the
capture reading 4294966296, the elapsed time used is 5000 ms, and with offset
-3600 the result is 1700000000 + 5 - 3600. -/
theorem epochTime_formula_witness :
    millis clientWrapped < clientWrapped.m_lastUpdate
      ∧ sub32 (millis clientWrapped) clientWrapped.m_lastUpdate = 5000
      ∧ (epochTime clientWrapped : Int) = (-3600 + 1700000000 + 5) % 4294967296
      ∧ epochTime clientWrapped = 1700000000 + 5 - 3600 :=
  ⟨by decide,
   ((epochTime_formula clientWrapped).2.1 5000 (by decide) (by decide) (by decide)).1,
   ((epochTime_formula clientWrapped).2.1 5000 (by decide) (by decide) (by decide)).2,
   (epochTime_formula clientWrapped).2.2 (by decide) (by decide) (by decide)⟩

/-- C8, as the claim states it, fails: with `timeOffset = -5` and
`epochSeconds = 0` the sum at `d2 = 5000` is 0, within the 32-bit range, yet
`epochTime()` at `d1 = 0` is `2 ^ 32 - 5`, above its value 0 at `d2`. -/
theorem epochTime_not_monotone_below_zero :
    (0 : Nat) ≤ 5000 ∧ 5000 < U32
      ∧ 0 ≤ clientOffsetMinus5.m_timeOffset + clientOffsetMinus5.m_currentEpoc + (5000 / 1000 : Nat)
      ∧ clientOffsetMinus5.m_timeOffset + clientOffsetMinus5.m_currentEpoc + (5000 / 1000 : Nat)
          < 4294967296
      ∧ epochTime (atElapsed clientOffsetMinus5 0) = 4294967291
      ∧ epochTime (atElapsed clientOffsetMinus5 5000) = 0
      ∧ ¬ (epochTime (atElapsed clientOffsetMinus5 0)
            ≤ epochTime (atElapsed clientOffsetMinus5 5000)) := by
  decide

/-- C8, amended: for a fixed stored state and true elapsed durations
`d1 ≤ d2 < 2 ^ 32`, `epochTime()` at reading `(capturedAtLocalMillis + d1) mod
2 ^ 32` is at most its value at reading `(capturedAtLocalMillis + d2) mod 2 ^ 32`,
wrapped or not, given that `timeOffset + epochSeconds + d1 / 1000` is not
negative and `timeOffset + epochSeconds + d2 / 1000` is below `2 ^ 32`. -/
theorem epochTime_monotone (c : Client) (d1 d2 : Nat) (h12 : d1 ≤ d2) (h2 : d2 < U32)
    (hlo : 0 ≤ c.m_timeOffset + c.m_currentEpoc + (d1 / 1000 : Nat))
    (hhi : c.m_timeOffset + c.m_currentEpoc + (d2 / 1000 : Nat) < 4294967296) :
    epochTime (atElapsed c d1) ≤ epochTime (atElapsed c d2)
      ∧ (epochTime (atElapsed c d1) : Int) = c.m_timeOffset + c.m_currentEpoc + (d1 / 1000 : Nat)
      ∧ (epochTime (atElapsed c d2) : Int)
          = c.m_timeOffset + c.m_currentEpoc + (d2 / 1000 : Nat) := by
  have e1 := sub32_atElapsed c d1 (lt_of_le_of_lt h12 h2)
  have e2 := sub32_atElapsed c d2 h2
  have hd : d1 / 1000 ≤ d2 / 1000 := Nat.div_le_div_right h12
  have t1 : (atElapsed c d1).m_timeOffset = c.m_timeOffset := rfl
  have t2 : (atElapsed c d2).m_timeOffset = c.m_timeOffset := rfl
  have u1 : (atElapsed c d1).m_currentEpoc = c.m_currentEpoc := rfl
  have u2 : (atElapsed c d2).m_currentEpoc = c.m_currentEpoc := rfl
  simp only [epochTime, add32, toU32, U32, e1, e2, t1, t2, u1, u2] at *
  omega

/-- C8 amended, across a wrap: the capture reading is 4294966296, the reading
at `d1 = 500` is not wrapped, the reading at `d2 = 5000` is. -/
theorem epochTime_monotone_witness :
    millis (atElapsed clientWrapped 500) > clientWrapped.m_lastUpdate
      ∧ millis (atElapsed clientWrapped 5000) < clientWrapped.m_lastUpdate
      ∧ epochTime (atElapsed clientWrapped 500) ≤ epochTime (atElapsed clientWrapped 5000) :=
  ⟨by decide, by decide,
   (epochTime_monotone clientWrapped 500 5000 (by decide) (by decide) (by decide)
      (by decide)).1⟩

/-! ## Synchronization controller: the polling loop -/

/-- One pass through the loop body advances the counter by 10 ms, makes one
poll, and touches nothing but the packet buffer. -/
theorem pollStep_frame (tr : Transport) (c : Client) :
    (pollStep tr c).1 = { c with
      clock := c.clock + 10
      polls := c.polls + 1
      m_packetBuffer := (pollStep tr c).1.m_packetBuffer } := by
  simp only [pollStep, delay]
  split_ifs <;> rfl

/-- When the loop body leaves `cb` non-zero after a non-negative
`parsePacket()`, the buffer holds a datagram just read that `isValid` accepts. -/
theorem pollStep_valid (tr : Transport) (c : Client)
    (hcb : 0 ≤ (tr c.polls).cb) (hne : (pollStep tr c).2 ≠ 0) :
    isValid (pollStep tr c).1.m_packetBuffer = true
      ∧ (pollStep tr c).1.m_packetBuffer
          = readInto c.m_packetBuffer (tr c.polls).data NTP_PACKET_SIZE := by
  simp only [pollStep, delay] at *
  split_ifs at * with h1 h2
  · simp at hne
  · simp only [Bool.not_eq_true', Bool.not_eq_false] at h2
    exact ⟨h2, rfl⟩
  · simp only at hne
    omega

/-- The loop ends: with `timeout ≤ 101` on entry, fuel `102 - timeout` gives a
result. -/
theorem pollLoop_terminates (tr : Transport) :
    ∀ (fuel timeout : Nat) (c : Client), timeout ≤ 101 → 102 ≤ fuel + timeout →
      ∃ r, pollLoop tr fuel timeout c = some r := by
  intro fuel
  induction fuel with
  | zero => intro timeout c h1 h2; omega
  | succ n ih =>
    intro timeout c h1 h2
    unfold pollLoop
    simp only
    by_cases ht : timeout > 100
    · simp [ht]
    · have hm : (timeout + 1) % 256 = timeout + 1 := by omega
      simp only [ht, if_false, hm]
      split_ifs
      · exact ih (timeout + 1) _ (by omega) (by omega)
      · exact ⟨_, rfl⟩

/-- What the loop does to the state: only the counter, the poll count and the
packet buffer change.  On a normal exit after `k = timeout1 - timeout` passes
the counter has advanced `10 * k` ms; `return false` is reached on the pass
entered with `timeout = 101`. -/
theorem pollLoop_spec (tr : Transport) :
    ∀ (fuel timeout : Nat) (c c1 : Client) (timeout1 : Nat) (b : Bool),
      timeout ≤ 101 → pollLoop tr fuel timeout c = some (c1, timeout1, b) →
      c1 = { c with clock := c1.clock, polls := c1.polls, m_packetBuffer := c1.m_packetBuffer }
      ∧ (b = true → timeout < timeout1 ∧ timeout1 ≤ 101
            ∧ c1.clock = c.clock + 10 * (timeout1 - timeout)
            ∧ c1.polls = c.polls + (timeout1 - timeout))
      ∧ (b = false → timeout1 = 101
            ∧ c1.clock = c.clock + 10 * (102 - timeout)
            ∧ c1.polls = c.polls + (102 - timeout)) := by
  intro fuel
  induction fuel with
  | zero => intro timeout c c1 timeout1 b _ h; simp [pollLoop] at h
  | succ n ih =>
    intro timeout c c1 timeout1 b h1 h
    unfold pollLoop at h
    simp only at h
    have hf := pollStep_frame tr c
    by_cases ht : timeout > 100
    · simp only [ht, if_true, Option.some.injEq, Prod.mk.injEq] at h
      obtain ⟨rfl, rfl, rfl⟩ := h
      have e : timeout = 101 := by omega
      subst e
      refine ⟨?_, by simp, fun _ => ⟨rfl, ?_, ?_⟩⟩
      · rw [hf]
      · rw [hf]
      · rw [hf]
    · have hm : (timeout + 1) % 256 = timeout + 1 := by omega
      simp only [ht, if_false, hm] at h
      split_ifs at h with hz
      · obtain ⟨g1, g2, g3⟩ := ih (timeout + 1) _ c1 timeout1 b (by omega) h
        have hc : (pollStep tr c).1.clock = c.clock + 10 := by rw [hf]
        have hp : (pollStep tr c).1.polls = c.polls + 1 := by rw [hf]
        refine ⟨?_, ?_, ?_⟩
        · rw [g1, hf]
        · intro hb
          obtain ⟨k1, k2, k3, k4⟩ := g2 hb
          refine ⟨by omega, k2, ?_, ?_⟩
          · rw [k3, hc]; omega
          · rw [k4, hp]; omega
        · intro hb
          obtain ⟨k1, k3, k4⟩ := g3 hb
          refine ⟨k1, ?_, ?_⟩
          · rw [k3, hc]; omega
          · rw [k4, hp]; omega
      · simp only [Option.some.injEq, Prod.mk.injEq] at h
        obtain ⟨rfl, rfl, rfl⟩ := h
        refine ⟨?_, fun _ => ⟨by omega, by omega, ?_, ?_⟩, by simp⟩
        · rw [hf]
        · rw [hf]; simp
        · rw [hf]; simp

/-- On a normal exit under a transport whose `parsePacket()` is never
negative, the buffer holds a datagram that `isValid` accepts. -/
theorem pollLoop_valid (tr : Transport) (hcb : ∀ i, 0 ≤ (tr i).cb) :
    ∀ (fuel timeout : Nat) (c c1 : Client) (timeout1 : Nat),
      pollLoop tr fuel timeout c = some (c1, timeout1, true) →
      isValid c1.m_packetBuffer = true := by
  intro fuel
  induction fuel with
  | zero => intro timeout c c1 timeout1 h; simp [pollLoop] at h
  | succ n ih =>
    intro timeout c c1 timeout1 h
    unfold pollLoop at h
    simp only at h
    split_ifs at h with ht hz
    · simp at h
    · exact ih _ _ _ _ h
    · simp only [Option.some.injEq, Prod.mk.injEq] at h
      obtain ⟨rfl, -, -⟩ := h
      exact (pollStep_valid tr c (hcb _) (by simpa using hz)).1

/-! ## Synchronization controller: `forceUpdate` -/

/-- The method `forceUpdate` always returns. -/
theorem forceUpdate_terminates (tr : Transport) (c : Client) :
    ∃ r, forceUpdate tr c = some r := by
  obtain ⟨⟨c1, t, b⟩, hr⟩ := pollLoop_terminates tr 102 0 (sendNTPPacket c) (by omega) (by omega)
  unfold forceUpdate
  rw [hr]
  cases b <;> exact ⟨_, rfl⟩

/-- A `forceUpdate` that returns false has sent one request, polled 102 times
over 1020 ms, and changed nothing else but the packet buffer. -/
theorem forceUpdate_false (tr : Transport) (c c1 : Client)
    (h : forceUpdate tr c = some (c1, false)) :
    c1 = { c with
      clock := c.clock + 1020
      polls := c.polls + 102
      sent := c.sent ++ [requestOf c]
      m_packetBuffer := c1.m_packetBuffer } := by
  unfold forceUpdate at h
  split at h
  · simp at h
  · rename_i c2 t hp
    simp only [Option.some.injEq, Prod.mk.injEq, and_true] at h
    subst h
    obtain ⟨g1, -, g3⟩ := pollLoop_spec tr 102 0 _ _ _ _ (by omega) hp
    obtain ⟨-, k3, k4⟩ := g3 rfl
    rw [g1, k3, k4, sendNTPPacket_frame]
    rfl
  · simp at h

/-- A `forceUpdate` that returns true left the loop after `k` polls, `1 ≤ k ≤
101`, at counter `clock + 10 * k`; it stores `millis() - 10 * (k + 1)` and the
seconds of bytes 40 to 43 of the buffer less `SEVENZYYEARS`. -/
theorem forceUpdate_true (tr : Transport) (c c1 : Client)
    (h : forceUpdate tr c = some (c1, true)) :
    ∃ k, 1 ≤ k ∧ k ≤ 101 ∧
      c1 = { c with
        clock := c.clock + 10 * k
        polls := c.polls + k
        sent := c.sent ++ [requestOf c]
        m_packetBuffer := c1.m_packetBuffer
        m_lastUpdate := sub32 ((c.clock + 10 * k) % U32) (10 * (k + 1))
        m_currentEpoc := sub32 (secsSince1900 c1.m_packetBuffer) SEVENZYYEARS } := by
  unfold forceUpdate at h
  split at h
  · simp at h
  · simp at h
  · rename_i c2 t hp
    simp only [Option.some.injEq, Prod.mk.injEq, and_true] at h
    subst h
    obtain ⟨g1, g2, -⟩ := pollLoop_spec tr 102 0 _ _ _ _ (by omega) hp
    obtain ⟨k1, k2, k3, k4⟩ := g2 rfl
    refine ⟨t, by omega, k2, ?_⟩
    have hc : c2.clock = c.clock + 10 * t := by rw [k3, sendNTPPacket_frame]; rfl
    have hq : c2.polls = c.polls + t := by rw [k4, sendNTPPacket_frame]; rfl
    simp only [millis, hc]
    rw [g1, k3, k4, sendNTPPacket_frame]
    rfl

/-- Under a transport whose `parsePacket()` is never negative, a
`forceUpdate` that returns true stores the transmit epoch of a buffer that
`isValid` accepts. -/
theorem forceUpdate_true_valid (tr : Transport) (hcb : ∀ i, 0 ≤ (tr i).cb)
    (c c1 : Client) (h : forceUpdate tr c = some (c1, true)) :
    isValid c1.m_packetBuffer = true
      ∧ c1.m_currentEpoc = sub32 (secsSince1900 c1.m_packetBuffer) SEVENZYYEARS := by
  obtain ⟨k, -, -, hk⟩ := forceUpdate_true tr c c1 h
  refine ⟨?_, by rw [hk]⟩
  unfold forceUpdate at h
  split at h
  · simp at h
  · simp at h
  · rename_i c2 t hp
    simp only [Option.some.injEq, Prod.mk.injEq, and_true] at h
    subst h
    exact pollLoop_valid tr hcb 102 0 (sendNTPPacket c) c2 t hp

/-- C2: the code departs from the claim when `parsePacket()` returns -1 on the
first poll: nothing is read and `isValid` is never called, yet the loop ends
because `cb` is not 0, `forceUpdate` returns true and replaces the stored
epoch 1700000000 by 2085978496, decoded from its own request, which `isValid`
rejects. -/
theorem forceUpdate_accepts_error_without_packet :
    clientSynced.m_currentEpoc = 1700000000 ∧ clientSynced.m_lastUpdate = 500
      ∧ (forceUpdate transportError clientSynced).map
          (fun r => (r.2, r.1.m_currentEpoc, r.1.m_lastUpdate, r.1.m_packetBuffer))
          = some (true, 2085978496, 990, requestPacket)
      ∧ isValid requestPacket = false := by
  decide

/-- C3: `forceUpdate` returns, and when it returns false the stored
`m_currentEpoc`, `m_lastUpdate`, `m_timeOffset` and `m_updateInterval` are
what they were before the call, for every state and transport. -/
theorem forceUpdate_false_keeps_epoch (tr : Transport) (c c1 : Client)
    (h : forceUpdate tr c = some (c1, false)) :
    c1.m_currentEpoc = c.m_currentEpoc ∧ c1.m_lastUpdate = c.m_lastUpdate
      ∧ c1.m_timeOffset = c.m_timeOffset ∧ c1.m_updateInterval = c.m_updateInterval := by
  have hf := forceUpdate_false tr c c1 h
  refine ⟨?_, ?_, ?_, ?_⟩ <;> rw [hf]

set_option maxRecDepth 1000000 in
/-- C3 on a synchronized client whose transport stays silent: the call
returns false and the epoch 1700000000 captured at reading 500 is kept. -/
theorem forceUpdate_false_keeps_epoch_witness :
    forceUpdate transportSilent clientSynced
        = some ({ sendNTPPacket clientSynced with clock := 2020, polls := 102 }, false)
      ∧ ({ sendNTPPacket clientSynced with clock := 2020, polls := 102 } : Client).m_currentEpoc
          = 1700000000
      ∧ ({ sendNTPPacket clientSynced with clock := 2020, polls := 102 } : Client).m_lastUpdate
          = 500 :=
  ⟨by decide,
   (forceUpdate_false_keeps_epoch transportSilent clientSynced
      { sendNTPPacket clientSynced with clock := 2020, polls := 102 } (by decide)).1,
   (forceUpdate_false_keeps_epoch transportSilent clientSynced
      { sendNTPPacket clientSynced with clock := 2020, polls := 102 } (by decide)).2.1⟩

/-! ## Transmit epoch -/

theorem word_eq (h l : Nat) (hh : h < 256) (hl : l < 256) : word h l = h * 256 + l := by
  unfold word
  rw [Nat.mod_eq_of_lt hh, Nat.mod_eq_of_lt hl, Nat.shiftLeft_eq]
  have e : h * 2 ^ 8 ||| l = 2 ^ 8 * h + l := by
    rw [Nat.mul_comm]
    exact (Nat.mul_add_lt_is_or (by simpa using hl) h).symm
  rw [e]
  omega

theorem byteAt_drop_take (p : List Nat) (n m i : Nat) (hi : i < m) :
    byteAt ((p.drop n).take m) i = byteAt p (n + i) := by
  simp [byteAt, List.getD_eq_getElem?_getD, List.getElem?_take, hi]

/-- Bytes 40 to 43 holding `x < 2 ^ 32` in big-endian order are read back as
`x`. -/
theorem secsSince1900_bigEndian (buf : List Nat) (x : Nat) (hx : x < U32)
    (hb : (buf.drop 40).take 4 = bigEndian4 x) : secsSince1900 buf = x := by
  have b0 : byteAt buf 40 = x / 16777216 % 256 := by
    rw [show (40 : Nat) = 40 + 0 from rfl, ← byteAt_drop_take buf 40 4 0 (by omega), hb]; rfl
  have b1 : byteAt buf 41 = x / 65536 % 256 := by
    rw [show (41 : Nat) = 40 + 1 from rfl, ← byteAt_drop_take buf 40 4 1 (by omega), hb]; rfl
  have b2 : byteAt buf 42 = x / 256 % 256 := by
    rw [show (42 : Nat) = 40 + 2 from rfl, ← byteAt_drop_take buf 40 4 2 (by omega), hb]; rfl
  have b3 : byteAt buf 43 = x % 256 := by
    rw [show (43 : Nat) = 40 + 3 from rfl, ← byteAt_drop_take buf 40 4 3 (by omega), hb]; rfl
  unfold secsSince1900
  simp only [b0, b1, b2, b3]
  rw [word_eq _ _ (Nat.mod_lt _ (by omega)) (Nat.mod_lt _ (by omega)),
    word_eq _ _ (Nat.mod_lt _ (by omega)) (Nat.mod_lt _ (by omega)), Nat.shiftLeft_eq]
  have hlo : x / 256 % 256 * 256 + x % 256 < 2 ^ 16 := by omega
  have hhi : (x / 16777216 % 256 * 256 + x / 65536 % 256) * 2 ^ 16 % U32
      = 2 ^ 16 * (x / 16777216 % 256 * 256 + x / 65536 % 256) := by
    simp only [U32]
    omega
  rw [hhi, ← Nat.mul_add_lt_is_or hlo]
  simp only [U32] at hx
  omega

/-- C4: if `forceUpdate` returns true on a buffer whose bytes 40 to 43 hold
`e + 2208988800` in big-endian order, with `e < 2 ^ 32 - 2208988800`, the
stored `m_currentEpoc` is `e`. -/
theorem forceUpdate_decodes_transmit_epoch (tr : Transport) (c c1 : Client) (e : Nat)
    (he : e < U32 - SEVENZYYEARS)
    (h : forceUpdate tr c = some (c1, true))
    (hb : (c1.m_packetBuffer.drop 40).take 4 = bigEndian4 (e + SEVENZYYEARS)) :
    c1.m_currentEpoc = e := by
  obtain ⟨k, -, -, hk⟩ := forceUpdate_true tr c c1 h
  have hs := secsSince1900_bigEndian c1.m_packetBuffer (e + SEVENZYYEARS)
    (by simp only [U32, SEVENZYYEARS] at *; omega) hb
  rw [hk]
  simp only [hs]
  simp only [sub32, U32, SEVENZYYEARS] at *
  omega

/-- C4 at `e = 0`: the bytes `0x83 0xAA 0x7E 0x80` are `0 + 2208988800` in
big-endian order, and a response carrying them in bytes 40 to 43 is accepted
and stored as Unix epoch 0. -/
theorem forceUpdate_decodes_transmit_epoch_witness :
    bigEndian4 (0 + SEVENZYYEARS) = [0x83, 0xAA, 0x7E, 0x80]
      ∧ forceUpdate (transportOnce SEVENZYYEARS) clientSynced = some (clientAtEpoch0, true)
      ∧ (clientAtEpoch0.m_packetBuffer.drop 40).take 4 = [0x83, 0xAA, 0x7E, 0x80]
      ∧ clientAtEpoch0.m_currentEpoc = 0 :=
  ⟨by decide, by decide, by decide,
   forceUpdate_decodes_transmit_epoch (transportOnce SEVENZYYEARS) clientSynced
     clientAtEpoch0 0 (by decide) (by decide) (by decide)⟩

/-! ## Synchronization controller: `update` -/

theorem update_due (tr : Transport) (c : Client) (h : updateDue c) :
    update tr c
      = forceUpdate tr (if c.m_udpSetup then c else begin c NTP_DEFAULT_LOCAL_PORT) := by
  unfold updateDue at h
  unfold update
  have hc : (decide (sub32 (millis c) c.m_lastUpdate ≥ c.m_updateInterval)
      || (c.m_lastUpdate == 0)) = true := by
    simpa using h
  rw [if_pos hc]
  cases c.m_udpSetup <;> rfl

theorem update_not_due (tr : Transport) (c : Client) (h : ¬ updateDue c) :
    update tr c = some (c, true) := by
  unfold updateDue at h
  unfold update
  have hc : ¬ (decide (sub32 (millis c) c.m_lastUpdate ≥ c.m_updateInterval)
      || (c.m_lastUpdate == 0)) = true := by
    simpa using h
  rw [if_neg hc]

/-- A due `update` returns and has sent exactly one request. -/
theorem update_due_sends (tr : Transport) (c : Client) (h : updateDue c) :
    ∃ c1 b, update tr c = some (c1, b) ∧ c1.sent = c.sent ++ [requestOf c] := by
  rw [update_due tr c h]
  obtain ⟨⟨c1, b⟩, hr⟩ := forceUpdate_terminates tr
    (if c.m_udpSetup then c else begin c NTP_DEFAULT_LOCAL_PORT)
  refine ⟨c1, b, hr, ?_⟩
  have hs : (if c.m_udpSetup then c else begin c NTP_DEFAULT_LOCAL_PORT).sent = c.sent := by
    split_ifs <;> rfl
  have hq : requestOf (if c.m_udpSetup then c else begin c NTP_DEFAULT_LOCAL_PORT)
      = requestOf c := by
    split_ifs <;> rfl
  cases b with
  | false =>
    have := forceUpdate_false tr _ c1 hr
    rw [this, hs, hq]
  | true =>
    obtain ⟨k, -, -, hk⟩ := forceUpdate_true tr _ c1 hr
    rw [hk, hs, hq]

set_option maxRecDepth 1000000 in
/-- C5, as the claim states it, fails: the stored epoch is not 0 and only
5000 ms of an interval of 60000 ms have elapsed, yet `update()` sends a
request and, the transport staying silent, returns false. -/
theorem update_exchanges_with_epoch_set :
    clientSeeded.m_currentEpoc ≠ 0
      ∧ sub32 (millis clientSeeded) clientSeeded.m_lastUpdate = 5000
      ∧ clientSeeded.m_updateInterval = 60000
      ∧ clientSeeded.sent = []
      ∧ (update transportSilent clientSeeded).map (fun r => (r.2, r.1.sent))
          = some (false, [requestOf clientSeeded]) := by
  decide

/-- C5, amended: `update()` sends a request exactly when `m_lastUpdate` is 0
or the wraparound-safe elapsed time `millis() - m_lastUpdate` has reached
`m_updateInterval`; it then runs `forceUpdate`, after `begin()` when the
transport was not set up, and returns its result.  In every other case it
returns true and leaves the whole state, transport included, unchanged. -/
theorem update_spec (tr : Transport) (c : Client) :
    ((∃ c1 b, update tr c = some (c1, b) ∧ c1.sent = c.sent ++ [requestOf c])
        ↔ (c.m_lastUpdate = 0 ∨ c.m_updateInterval ≤ sub32 (millis c) c.m_lastUpdate))
      ∧ ((c.m_lastUpdate = 0 ∨ c.m_updateInterval ≤ sub32 (millis c) c.m_lastUpdate) →
          update tr c
            = forceUpdate tr (if c.m_udpSetup then c else begin c NTP_DEFAULT_LOCAL_PORT))
      ∧ (¬ (c.m_lastUpdate = 0 ∨ c.m_updateInterval ≤ sub32 (millis c) c.m_lastUpdate) →
          update tr c = some (c, true)) := by
  have hd : (c.m_lastUpdate = 0 ∨ c.m_updateInterval ≤ sub32 (millis c) c.m_lastUpdate)
      ↔ updateDue c := by
    unfold updateDue
    exact Or.comm
  refine ⟨⟨?_, fun h => update_due_sends tr c (hd.1 h)⟩,
    fun h => update_due tr c (hd.1 h), fun h => update_not_due tr c (fun g => h (hd.2 g))⟩
  rintro ⟨c1, b, hu, hs⟩
  by_contra hn
  rw [update_not_due tr c (fun g => hn (hd.2 g))] at hu
  simp only [Option.some.injEq, Prod.mk.injEq] at hu
  obtain ⟨rfl, -⟩ := hu
  simp at hs

set_option maxRecDepth 1000000 in
/-- C5 amended, on both sides: `clientSynced`, 500 ms after its capture
reading, is left as it is; `clientSeeded`, with `m_lastUpdate = 0`, runs
`forceUpdate` after `begin()`. -/
theorem update_spec_witness :
    update transportSilent clientSynced = some (clientSynced, true)
      ∧ update transportSilent clientSeeded
          = forceUpdate transportSilent (begin clientSeeded NTP_DEFAULT_LOCAL_PORT) :=
  ⟨(update_spec transportSilent clientSynced).2.2 (by decide),
   (update_spec transportSilent clientSeeded).2.1 (by decide)⟩

/-! ## Rate limiting -/

/-- The stored capture reading after a successful due `update()`: the reading
at the start of the call less 10 ms, whatever the number of polls. -/
theorem update_true_lastUpdate (tr : Transport) (c c1 : Client) (hdue : updateDue c)
    (h : update tr c = some (c1, true)) :
    c1.m_lastUpdate = sub32 (millis c) 10 ∧ c.clock + 10 ≤ c1.clock
      ∧ c1.m_updateInterval = c.m_updateInterval := by
  rw [update_due tr c hdue] at h
  obtain ⟨k, k1, k2, hk⟩ := forceUpdate_true tr _ c1 h
  have hc : (if c.m_udpSetup then c else begin c NTP_DEFAULT_LOCAL_PORT).clock = c.clock := by
    split_ifs <;> rfl
  have hi : (if c.m_udpSetup then c else begin c NTP_DEFAULT_LOCAL_PORT).m_updateInterval
      = c.m_updateInterval := by
    split_ifs <;> rfl
  refine ⟨?_, ?_, ?_⟩
  · rw [hk]
    simp only [hc, sub32, millis, U32]
    omega
  · rw [hk]
    simp only [hc]
    omega
  · rw [hk]
    simp only [hi]

set_option maxRecDepth 1000000 in
/-- C6: the code departs from the claim.  The first `update()` starts at
reading 1000, synchronizes on the first poll and returns at reading 1010 with
the capture reading 990 stored; a second `update()` at reading 60995, less
than 60000 ms after the first call, sends a second request. -/
theorem update_exchanges_within_interval :
    update (transportOnce (1700000000 + SEVENZYYEARS)) clientFresh
        = some (clientFirstSync, true)
      ∧ clientFirstSync.m_updateInterval = 60000
      ∧ 60995 - clientFresh.clock < 60000 ∧ 60995 - clientFirstSync.clock < 60000
      ∧ clientFirstSync.sent.length = 1
      ∧ (update (transportOnce (1700000000 + SEVENZYYEARS))
            { clientFirstSync with clock := 60995 }).map (fun r => r.1.sent.length)
          = some 2 := by
  decide

/-- What the code gives for rate limiting.  Let a due `update()` start at
counter `c.clock` and return true, and let a further `update()` be made at
counter `now`, `d = now - c.clock` ms after the start of the first.  If
`d + 10 < m_updateInterval` and the stored capture reading is not 0 the
further call sends nothing, returns true and leaves the state unchanged; if
`m_updateInterval ≤ d` and `d + 10 < 2 ^ 32` it sends a request.  The first
`update()` of a fresh client sends a request. -/
theorem update_rate_limit (tr : Transport) (c c1 : Client) (now : Nat)
    (hdue : updateDue c) (h1 : update tr c = some (c1, true)) (hnow : c1.clock ≤ now) :
    (c1.m_lastUpdate ≠ 0 → now - c.clock + 10 < c1.m_updateInterval →
        update tr { c1 with clock := now } = some ({ c1 with clock := now }, true))
      ∧ (c1.m_updateInterval ≤ now - c.clock → now - c.clock + 10 < U32 →
          ∃ c2 b, update tr { c1 with clock := now } = some (c2, b)
            ∧ c2.sent = c1.sent ++ [requestOf c1])
      ∧ (∀ (server : String) (offset : Int) (interval start : Nat),
          ∃ c2 b, update tr (mk server offset interval start) = some (c2, b)
            ∧ c2.sent = [requestOf (mk server offset interval start)]) := by
  obtain ⟨hl, hck, hi⟩ := update_true_lastUpdate tr c c1 hdue h1
  refine ⟨?_, ?_, ?_⟩
  · intro hne hlt
    apply update_not_due
    unfold updateDue
    simp only [millis, sub32, U32] at *
    omega
  · intro hge hlt
    have hd : updateDue { c1 with clock := now } := by
      unfold updateDue
      left
      simp only [millis, sub32, U32] at *
      omega
    exact update_due_sends tr _ hd
  · intro server offset interval start
    have hd : updateDue (mk server offset interval start) := Or.inr rfl
    obtain ⟨c2, b, h2, h3⟩ := update_due_sends tr _ hd
    exact ⟨c2, b, h2, by simpa [mk] using h3⟩

set_option maxRecDepth 1000000 in
/-- The rate limit on a run with interval 60000: the first `update()` obtains
epoch 1700000000; a second `update()` 5000 ms after the first returned sends
nothing, returns true, and `epochTime()` is 1700000005; a third one 60000 ms
after the start of the first sends a second request. -/
theorem update_rate_limit_witness :
    update (transportOnce (1700000000 + SEVENZYYEARS)) clientFresh
        = some (clientFirstSync, true)
      ∧ clientFirstSync.m_currentEpoc = 1700000000
      ∧ update (transportOnce (1700000000 + SEVENZYYEARS)) { clientFirstSync with clock := 6010 }
          = some ({ clientFirstSync with clock := 6010 }, true)
      ∧ epochTime { clientFirstSync with clock := 6010 } = 1700000005
      ∧ ∃ c2 b, update (transportOnce (1700000000 + SEVENZYYEARS))
            { clientFirstSync with clock := 61000 } = some (c2, b)
          ∧ c2.sent = clientFirstSync.sent ++ [requestOf clientFirstSync] :=
  ⟨by decide, by decide,
   (update_rate_limit (transportOnce (1700000000 + SEVENZYYEARS)) clientFresh clientFirstSync
      6010 (by decide) (by decide) (by decide)).1 (by decide) (by decide),
   by decide,
   (update_rate_limit (transportOnce (1700000000 + SEVENZYYEARS)) clientFresh clientFirstSync
      61000 (by decide) (by decide) (by decide)).2.1 (by decide) (by decide)⟩

/-! ## Calendar date -/

theorem LEAP_YEAR_eq_gregorianLeap (y : Nat) (hy : 0 < y) : LEAP_YEAR y = gregorianLeap y := by
  simp [LEAP_YEAR, gregorianLeap, hy]

theorem daysBeforeYear_succ (y : Nat) (hy : 1970 ≤ y) :
    daysBeforeYear (y + 1) = daysBeforeYear y + (if LEAP_YEAR y then 366 else 365) := by
  have hl : LEAP_YEAR y = true ↔ (y % 4 = 0 ∧ (y % 100 ≠ 0 ∨ y % 400 = 0)) := by
    simp [LEAP_YEAR]
    omega
  have e4 : (y % 4 = 0 ∧ y / 4 = (y - 1) / 4 + 1) ∨ (y % 4 ≠ 0 ∧ y / 4 = (y - 1) / 4) := by
    omega
  have e100 : (y % 100 = 0 ∧ y / 100 = (y - 1) / 100 + 1)
      ∨ (y % 100 ≠ 0 ∧ y / 100 = (y - 1) / 100) := by omega
  have e400 : (y % 400 = 0 ∧ y / 400 = (y - 1) / 400 + 1)
      ∨ (y % 400 ≠ 0 ∧ y / 400 = (y - 1) / 400) := by omega
  have l1 : (y - 1) / 100 ≤ (y - 1) / 4 := by omega
  have l2 : 477 ≤ (y - 1) / 4 - (y - 1) / 100 + (y - 1) / 400 := by omega
  have m1 : y % 400 = 0 → y % 100 = 0 := by omega
  have m2 : y % 100 = 0 → y % 4 = 0 := by omega
  have hg : (if LEAP_YEAR y then 366 else 365)
      = if (y % 4 = 0 ∧ (y % 100 ≠ 0 ∨ y % 400 = 0)) then 366 else 365 := by
    by_cases h : LEAP_YEAR y = true
    · rw [if_pos h, if_pos (hl.1 h)]
    · rw [if_neg h, if_neg (fun g => h (hl.2 g))]
  rw [hg]
  simp only [daysBeforeYear, Nat.add_sub_cancel]
  generalize (y - 1) / 4 = q4 at *
  generalize (y - 1) / 100 = q100 at *
  generalize (y - 1) / 400 = q400 at *
  generalize y / 4 = p4 at *
  generalize y / 100 = p100 at *
  generalize y / 400 = p400 at *
  generalize y % 4 = r4 at *
  generalize y % 100 = r100 at *
  generalize y % 400 = r400 at *
  split_ifs with h <;> omega

/-- The year loop ends, on the year that contains day number `n`. -/
theorem yearLoop_spec (n : Nat) (hn : n + 366 < U32) :
    ∀ (fuel y : Nat), 1970 ≤ y → daysBeforeYear y ≤ n → n < daysBeforeYear y + 365 * fuel →
      ∃ y1, yearLoop n fuel (daysBeforeYear y) y = some (daysBeforeYear (y1 + 1), y1)
        ∧ y ≤ y1 ∧ daysBeforeYear y1 ≤ n ∧ n < daysBeforeYear (y1 + 1) := by
  intro fuel
  induction fuel with
  | zero => intro y _ h1 h2; omega
  | succ f ih =>
    intro y hy h1 h2
    have hs := daysBeforeYear_succ y hy
    have hle : (if LEAP_YEAR y then 366 else 365) ≤ 366 := by split_ifs <;> omega
    have hge : 365 ≤ (if LEAP_YEAR y then 366 else 365) := by split_ifs <;> omega
    have hy32 : y + 1 < U32 := by
      unfold daysBeforeYear at h1
      simp only [U32] at *
      omega
    have ha : add32 (daysBeforeYear y) (if LEAP_YEAR y then 366 else 365)
        = daysBeforeYear (y + 1) := by
      rw [hs]
      unfold add32
      apply Nat.mod_eq_of_lt
      omega
    have hb : add32 y 1 = y + 1 := Nat.mod_eq_of_lt hy32
    unfold yearLoop
    simp only [ha, hb]
    by_cases hc : daysBeforeYear (y + 1) ≤ n
    · rw [if_pos hc]
      obtain ⟨y1, g1, g2, g3, g4⟩ := ih (y + 1) (by omega) hc (by omega)
      exact ⟨y1, g1, by omega, g3, g4⟩
    · rw [if_neg hc]
      exact ⟨y, rfl, le_refl _, h1, by omega⟩

theorem monthLoop_congr (y y0 : Nat) (h : LEAP_YEAR y = LEAP_YEAR y0) :
    ∀ (fuel monthInt rawTime : Nat),
      monthLoop y fuel monthInt rawTime = monthLoop y0 fuel monthInt rawTime := by
  intro fuel
  induction fuel with
  | zero => intro monthInt rawTime; rfl
  | succ f ih => intro monthInt rawTime; simp only [monthLoop, h, ih]

set_option maxRecDepth 1000000 in
theorem monthLoopOk_all : ∀ (leap : Bool) (doy : Nat),
    doy < (if leap then 366 else 365) → monthLoopOk leap doy = true := by
  decide

/-- The year part of `daysFromCivil` for a shifted year `a ≥ 1969`: the days
from 1970-01-01 to the first of March of year `a`. -/
theorem civil_year (a : Nat) (ha : 1969 ≤ a) :
    ((a : Int) / 400) * 146097
        + (((a : Int) - (a : Int) / 400 * 400) * 365
            + ((a : Int) - (a : Int) / 400 * 400) / 4
            - ((a : Int) - (a : Int) / 400 * 400) / 100)
      = (daysBeforeYear (a + 1) : Nat) + 719162 := by
  have hD : daysBeforeYear (a + 1)
      = 365 * (a - 1969) + (a / 4 - a / 100 + a / 400) - 477 := by
    simp only [daysBeforeYear, Nat.add_sub_cancel]
    have : a + 1 - 1970 = a - 1969 := by omega
    rw [this]
  rw [hD]
  have l1 : a / 100 ≤ a / 4 := by omega
  have l2 : 477 ≤ a / 4 - a / 100 + a / 400 := by omega
  have k4 : a / 4 = 100 * (a / 400) + (a % 400) / 4 := by omega
  have k100 : a / 100 = 4 * (a / 400) + (a % 400) / 100 := by omega
  have r : (a : Int) - (a : Int) / 400 * 400 = ((a % 400 : Nat) : Int) := by omega
  rw [r]
  have l3 : a % 400 / 100 ≤ a % 400 / 4 := by omega
  have e1 : ((a % 400 : Nat) : Int) / 4 = ((a % 400 / 4 : Nat) : Int) := by omega
  have e2 : ((a % 400 : Nat) : Int) / 100 = ((a % 400 / 100 : Nat) : Int) := by omega
  have e3 : (a : Int) / 400 = ((a / 400 : Nat) : Int) := by omega
  rw [e1, e2, e3]
  have e4 : a % 400 = a - 400 * (a / 400) := by omega
  generalize a / 4 = q4 at *
  generalize a / 100 = q100 at *
  generalize a % 400 / 4 = s4 at *
  generalize a % 400 / 100 = s100 at *
  generalize a % 400 = rr at *
  generalize a / 400 = q400 at *
  omega

theorem daysFromCivil_low (y : Nat) (hy : 1970 ≤ y) (m d : Int) (hm : m ≤ 2) :
    daysFromCivil y m d
      = (daysBeforeYear y : Nat) - 306 + ((153 * (m + 9) + 2) / 5 + d - 1) := by
  have h := civil_year (y - 1) (by omega)
  have e : y - 1 + 1 = y := by omega
  have c : ((y - 1 : Nat) : Int) = (y : Int) - 1 := by omega
  rw [e, c] at h
  have h0 : (y : Int) - 1 ≥ 0 := by omega
  have h2 : ¬ m > 2 := by omega
  simp only [daysFromCivil, if_pos hm, if_pos h0, if_neg h2]
  generalize (153 * (m + 9) + 2) / 5 = q at *
  generalize ((y : Int) - 1 - ((y : Int) - 1) / 400 * 400) / 4 = t4 at *
  generalize ((y : Int) - 1 - ((y : Int) - 1) / 400 * 400) / 100 = t100 at *
  generalize ((y : Int) - 1) / 400 = t400 at *
  omega

theorem daysFromCivil_high (y : Nat) (hy : 1970 ≤ y) (m d : Int) (hm : 2 < m) :
    daysFromCivil y m d
      = (daysBeforeYear (y + 1) : Nat) - 306 + ((153 * (m - 3) + 2) / 5 + d - 1) := by
  have h := civil_year y (by omega)
  have h1 : ¬ m ≤ 2 := by omega
  have h0 : (y : Int) ≥ 0 := by omega
  simp only [daysFromCivil, if_neg h1, if_pos h0, if_pos (show m > 2 from hm)]
  generalize (153 * (m - 3) + 2) / 5 = q at *
  generalize ((y : Int) - (y : Int) / 400 * 400) / 4 = t4 at *
  generalize ((y : Int) - (y : Int) / 400 * 400) / 100 = t100 at *
  generalize (y : Int) / 400 = t400 at *
  omega

/-- The reference function on the date that lies `r` days into the month
with index `monthInt` of year `y`. -/
theorem daysFromCivil_eq (y monthInt r : Nat) (hy : 1970 ≤ y) (hm : monthInt < 12) :
    daysFromCivil y ((monthInt + 1 : Nat) : Int) ((r + 1 : Nat) : Int)
      = ((daysBeforeYear y + daysBeforeMonth (LEAP_YEAR y) monthInt + r : Nat) : Int) := by
  have hs := daysBeforeYear_succ y hy
  by_cases hlow : monthInt < 2
  · rw [daysFromCivil_low y hy _ _ (by omega)]
    interval_cases monthInt <;> simp [daysBeforeMonth] <;> omega
  · rw [daysFromCivil_high y hy _ _ (by omega), hs]
    cases LEAP_YEAR y <;> interval_cases monthInt <;> simp [daysBeforeMonth] <;> omega

theorem gregorianMonthLength_congr (y y0 m : Nat) (h : gregorianLeap y = gregorianLeap y0) :
    gregorianMonthLength y m = gregorianMonthLength y0 m := by
  simp only [gregorianMonthLength, h]

theorem LEAP_YEAR_sampleYear (leap : Bool) : LEAP_YEAR (sampleYear leap) = leap := by
  cases leap <;> decide

/-- The method `date` on a non-zero `secs`, in terms of the day number
`n = secs / 86400`. -/
theorem date_of_day (c : Client) (secs n : Nat) (h0 : secs ≠ 0) (hn : secs / 86400 = n) :
    date c secs =
      match yearLoop n (n + 1) 0 1970 with
      | none => none
      | some (days, yearInt) =>
        match monthLoop yearInt 13 0
            (sub32 n (sub32 days (if LEAP_YEAR yearInt then 366 else 365))) with
        | none => none
        | some (monthInt, rawTime2) =>
          some (yearInt % 65536, (monthInt + 1) % 256, (rawTime2 + 1) % 256) := by
  have hb : (secs != 0) = true := by simpa using h0
  subst hn
  unfold date
  simp only [hb, if_true]

set_option maxRecDepth 100000 in
/-- C9: for every non-zero 32-bit `secs`, `date( secs )` returns, and the
year, month and day it writes form a valid Gregorian date, not before 1970,
on which the reference days-from-civil function gives `floor(secs / 86400)`. -/
theorem date_spec (c : Client) (secs : Nat) (h0 : secs ≠ 0) (h32 : secs < U32) :
    ∃ y m d, date c secs = some (y, m, d)
      ∧ 1970 ≤ y ∧ 1 ≤ m ∧ m ≤ 12 ∧ 1 ≤ d ∧ d ≤ gregorianMonthLength y m
      ∧ daysFromCivil y m d = ((secs / 86400 : Nat) : Int) := by
  have hn : secs / 86400 ≤ 49710 := by
    simp only [U32] at h32
    omega
  rw [date_of_day c secs (secs / 86400) h0 rfl]
  generalize secs / 86400 = n at hn ⊢
  have hD0 : daysBeforeYear 1970 = 0 := by decide
  obtain ⟨y1, g1, g2, g3, g4⟩ := yearLoop_spec n (by simp only [U32]; omega) (n + 1) 1970
    (le_refl _) (by omega) (by omega)
  rw [hD0] at g1
  have hs := daysBeforeYear_succ y1 g2
  have hyl : (if LEAP_YEAR y1 then 366 else 365) ≤ 366 := by split_ifs <;> omega
  have hdoy : sub32 n (sub32 (daysBeforeYear (y1 + 1)) (if LEAP_YEAR y1 then 366 else 365))
      = n - daysBeforeYear y1 := by
    rw [hs]
    simp only [sub32, U32]
    omega
  have hlt : n - daysBeforeYear y1 < (if LEAP_YEAR y1 then 366 else 365) := by omega
  have hok := monthLoopOk_all (LEAP_YEAR y1) (n - daysBeforeYear y1) hlt
  unfold monthLoopOk at hok
  rw [← monthLoop_congr y1 (sampleYear (LEAP_YEAR y1)) (LEAP_YEAR_sampleYear _).symm] at hok
  have hy16 : y1 < 65536 := by
    unfold daysBeforeYear at g3
    omega
  have hgl : gregorianLeap y1 = gregorianLeap (sampleYear (LEAP_YEAR y1)) := by
    rw [← LEAP_YEAR_eq_gregorianLeap y1 (by omega),
      ← LEAP_YEAR_eq_gregorianLeap _ (by unfold sampleYear; split_ifs <;> omega),
      LEAP_YEAR_sampleYear]
  rw [g1]
  simp only [hdoy]
  cases hm : monthLoop y1 13 0 (n - daysBeforeYear y1) with
  | none => rw [hm] at hok; simp at hok
  | some pr =>
    obtain ⟨monthInt, r⟩ := pr
    rw [hm] at hok
    simp only [Bool.and_eq_true, decide_eq_true_eq, beq_iff_eq] at hok
    obtain ⟨⟨k1, k2⟩, k3⟩ := hok
    rw [← gregorianMonthLength_congr y1 _ _ hgl] at k3
    have hr : r < 31 := by
      have : gregorianMonthLength y1 (monthInt + 1) ≤ 31 := by
        unfold gregorianMonthLength
        split_ifs <;> omega
      omega
    refine ⟨y1, monthInt + 1, r + 1, ?_, g2, by omega, by omega, by omega, by omega, ?_⟩
    · dsimp only
      rw [Nat.mod_eq_of_lt hy16, Nat.mod_eq_of_lt (show monthInt + 1 < 256 by omega),
        Nat.mod_eq_of_lt (show r + 1 < 256 by omega)]
    · rw [daysFromCivil_eq y1 monthInt r g2 k1]
      congr 1
      omega

set_option maxRecDepth 100000 in
/-- C9 on 2024-02-29 00:00:00 UTC, `secs = 1709164800`, day number 19782:
`date` writes 2024, 2 and 29. -/
theorem date_spec_witness :
    date clientFresh 1709164800 = some (2024, 2, 29)
      ∧ daysFromCivil 2024 2 29 = 19782
      ∧ ∃ y m d, date clientFresh 1709164800 = some (y, m, d)
          ∧ 1970 ≤ y ∧ 1 ≤ m ∧ m ≤ 12 ∧ 1 ≤ d ∧ d ≤ gregorianMonthLength y m
          ∧ daysFromCivil y m d = ((1709164800 / 86400 : Nat) : Int) :=
  ⟨by decide, by decide, date_spec clientFresh 1709164800 (by decide) (by decide)⟩

/-! ## The polling loop, poll by poll -/

theorem pollStep_ne_zero_iff (tr : Transport) (c : Client) (hcb : 0 ≤ (tr c.polls).cb) :
    (pollStep tr c).2 ≠ 0 ↔
      (0 < (tr c.polls).cb
        ∧ isValid (readInto c.m_packetBuffer (tr c.polls).data NTP_PACKET_SIZE) = true) := by
  simp only [pollStep, delay]
  split_ifs with h1 h2
  · simp only [ne_eq, not_true_eq_false, false_iff, not_and]
    intro _
    simpa using h2
  · simp only [Bool.not_eq_true', Bool.not_eq_false] at h2
    constructor
    · intro _; exact ⟨h1, h2⟩
    · intro _; simp only [ne_eq]; omega
  · constructor
    · intro hne; simp only [ne_eq] at hne; omega
    · intro hh; exact absurd hh.1 h1

theorem pollStep_buffer (tr : Transport) (c : Client) :
    (pollStep tr c).1.m_packetBuffer
      = if 0 < (tr c.polls).cb then readInto c.m_packetBuffer (tr c.polls).data NTP_PACKET_SIZE
        else c.m_packetBuffer := by
  simp only [pollStep, delay]
  split_ifs <;> rfl

theorem afterPolls_succ (tr : Transport) (n : Nat) (c : Client) :
    afterPolls tr (n + 1) c = (pollStep tr (afterPolls tr n c)).1 := by
  induction n generalizing c with
  | zero => rfl
  | succ k ih =>
    show afterPolls tr (k + 1) (pollStep tr c).1 = _
    rw [ih]
    rfl

theorem afterPolls_frame (tr : Transport) (n : Nat) (c : Client) :
    afterPolls tr n c = { c with
      clock := c.clock + 10 * n
      polls := c.polls + n
      m_packetBuffer := (afterPolls tr n c).m_packetBuffer } := by
  induction n with
  | zero => rfl
  | succ k ih =>
    rw [afterPolls_succ, pollStep_frame, ih]
    simp only [Client.mk.injEq, true_and]
    omega

/-- Passes that leave `cb` at 0 only advance the loop. -/
theorem pollLoop_skip (tr : Transport) :
    ∀ (n fuel timeout : Nat) (c : Client),
      (∀ i, i < n → (pollStep tr (afterPolls tr i c)).2 = 0) → timeout + n ≤ 101 →
      pollLoop tr (fuel + n) timeout c = pollLoop tr fuel (timeout + n) (afterPolls tr n c) := by
  intro n
  induction n with
  | zero => intro fuel timeout c _ _; rfl
  | succ k ih =>
    intro fuel timeout c h hle
    have h0 : (pollStep tr c).2 = 0 := h 0 (by omega)
    have ht : ¬ timeout > 100 := by omega
    have hm : (timeout + 1) % 256 = timeout + 1 := by omega
    have hstep : pollLoop tr (fuel + k + 1) timeout c
        = pollLoop tr (fuel + k) (timeout + 1) (pollStep tr c).1 := by
      rw [pollLoop]
      simp only [ht, if_false, hm, h0, beq_self_eq_true, if_true]
    rw [show fuel + (k + 1) = fuel + k + 1 from rfl, hstep,
      ih fuel (timeout + 1) (pollStep tr c).1 (fun i hi => h (i + 1) (by omega)) (by omega)]
    rw [show timeout + 1 + k = timeout + (k + 1) by omega]
    rfl

theorem pollLoop_hit (tr : Transport) (fuel timeout : Nat) (c : Client)
    (hne : (pollStep tr c).2 ≠ 0) (ht : timeout ≤ 100) :
    pollLoop tr (fuel + 1) timeout c = some ((pollStep tr c).1, timeout + 1, true) := by
  have ht1 : ¬ timeout > 100 := by omega
  have hm : (timeout + 1) % 256 = timeout + 1 := by omega
  rw [pollLoop]
  simp only [ht1, if_false, hm, beq_iff_eq, hne]

theorem pollLoop_last (tr : Transport) (fuel : Nat) (c : Client) :
    pollLoop tr (fuel + 1) 101 c = some ((pollStep tr c).1, 101, false) := by
  rw [pollLoop]
  simp

/-- The outcome of `forceUpdate` when pass `j + 1 ≤ 101` is the first that
leaves `cb` non-zero. -/
theorem forceUpdate_of_hit (tr : Transport) (c : Client) (j : Nat) (hj : j < 101)
    (hskip : ∀ i, i < j → (pollStep tr (afterPolls tr i (sendNTPPacket c))).2 = 0)
    (hhit : (pollStep tr (afterPolls tr j (sendNTPPacket c))).2 ≠ 0) :
    forceUpdate tr c
      = some ({ afterPolls tr (j + 1) (sendNTPPacket c) with
                m_lastUpdate := sub32 (millis (afterPolls tr (j + 1) (sendNTPPacket c)))
                  (10 * (j + 1 + 1))
                m_currentEpoc := sub32
                  (secsSince1900 (afterPolls tr (j + 1) (sendNTPPacket c)).m_packetBuffer)
                  SEVENZYYEARS }, true) := by
  have h1 := pollLoop_skip tr j (102 - j) 0 (sendNTPPacket c) hskip (by omega)
  rw [show 102 - j + j = 102 by omega, show 102 - j = (101 - j) + 1 by omega,
    Nat.zero_add, pollLoop_hit tr (101 - j) j _ hhit (by omega)] at h1
  unfold forceUpdate
  rw [h1, afterPolls_succ]

/-- The outcome of `forceUpdate` when none of the first 101 passes leaves
`cb` non-zero: pass 102 is made and the call returns false. -/
theorem forceUpdate_of_miss (tr : Transport) (c : Client)
    (hskip : ∀ i, i < 101 → (pollStep tr (afterPolls tr i (sendNTPPacket c))).2 = 0) :
    forceUpdate tr c = some (afterPolls tr 102 (sendNTPPacket c), false) := by
  have h1 := pollLoop_skip tr 101 1 0 (sendNTPPacket c) hskip (by omega)
  rw [show 1 + 101 = 102 by omega, Nat.zero_add, pollLoop_last] at h1
  have e : afterPolls tr 102 (sendNTPPacket c)
      = (pollStep tr (afterPolls tr 101 (sendNTPPacket c))).1 := afterPolls_succ tr 101 _
  unfold forceUpdate
  rw [h1, e]

theorem delivers_iff (tr : Transport) (hcb : ∀ i, 0 ≤ (tr i).cb) (c : Client) (j : Nat) :
    delivers tr c j ↔ (pollStep tr (afterPolls tr j c)).2 ≠ 0 := by
  rw [pollStep_ne_zero_iff tr _ (hcb _)]
  rfl

/-- The poll budget in terms of the buffer.  Under a transport whose
`parsePacket()` is never negative, `forceUpdate` returns true exactly when
one of the first 101 polls leaves, after its `read`, a buffer that passes
`isValid`; it then stops at the first such poll and stores the transmit
epoch held in that buffer.  When none of the first 101 polls does, poll 102
is still made and read into the buffer, and the call returns false with the
stored epoch unchanged. -/
theorem forceUpdate_first_valid (tr : Transport) (hcb : ∀ i, 0 ≤ (tr i).cb) (c : Client) :
    ((∃ c1, forceUpdate tr c = some (c1, true))
        ↔ ∃ j, j < 101 ∧ delivers tr (sendNTPPacket c) j)
      ∧ (∀ j, j < 101 → delivers tr (sendNTPPacket c) j →
          (∀ i, i < j → ¬ delivers tr (sendNTPPacket c) i) →
          ∃ c1, forceUpdate tr c = some (c1, true)
            ∧ c1.polls = c.polls + (j + 1)
            ∧ c1.m_packetBuffer
                = readInto (afterPolls tr j (sendNTPPacket c)).m_packetBuffer
                    (tr (c.polls + j)).data NTP_PACKET_SIZE
            ∧ isValid c1.m_packetBuffer = true
            ∧ c1.m_currentEpoc = sub32 (secsSince1900 c1.m_packetBuffer) SEVENZYYEARS)
      ∧ ((∀ j, j < 101 → ¬ delivers tr (sendNTPPacket c) j) →
          ∃ c1, forceUpdate tr c = some (c1, false)
            ∧ c1.polls = c.polls + 102
            ∧ c1.m_packetBuffer = (afterPolls tr 102 (sendNTPPacket c)).m_packetBuffer
            ∧ c1.m_currentEpoc = c.m_currentEpoc ∧ c1.m_lastUpdate = c.m_lastUpdate) := by
  have hpolls : ∀ n, (afterPolls tr n (sendNTPPacket c)).polls = c.polls + n := by
    intro n
    rw [afterPolls_frame, sendNTPPacket_frame]
  have hit : ∀ j, j < 101 → delivers tr (sendNTPPacket c) j →
      (∀ i, i < j → ¬ delivers tr (sendNTPPacket c) i) →
      ∃ c1, forceUpdate tr c = some (c1, true)
        ∧ c1.polls = c.polls + (j + 1)
        ∧ c1.m_packetBuffer
            = readInto (afterPolls tr j (sendNTPPacket c)).m_packetBuffer
                (tr (c.polls + j)).data NTP_PACKET_SIZE
        ∧ isValid c1.m_packetBuffer = true
        ∧ c1.m_currentEpoc = sub32 (secsSince1900 c1.m_packetBuffer) SEVENZYYEARS := by
    intro j hj hd hmin
    have hskip : ∀ i, i < j → (pollStep tr (afterPolls tr i (sendNTPPacket c))).2 = 0 := by
      intro i hi
      by_contra hne
      exact hmin i hi ((delivers_iff tr hcb _ i).2 hne)
    have hf := forceUpdate_of_hit tr c j hj hskip ((delivers_iff tr hcb _ j).1 hd)
    have hb : (afterPolls tr (j + 1) (sendNTPPacket c)).m_packetBuffer
        = readInto (afterPolls tr j (sendNTPPacket c)).m_packetBuffer
            (tr (c.polls + j)).data NTP_PACKET_SIZE := by
      rw [afterPolls_succ, pollStep_buffer, hpolls j, if_pos (by simpa [hpolls j] using hd.1)]
    refine ⟨_, hf, ?_, ?_, ?_, ?_⟩
    · show (afterPolls tr (j + 1) (sendNTPPacket c)).polls = _
      exact hpolls (j + 1)
    · show (afterPolls tr (j + 1) (sendNTPPacket c)).m_packetBuffer = _
      exact hb
    · show isValid (afterPolls tr (j + 1) (sendNTPPacket c)).m_packetBuffer = true
      rw [hb]
      have hv := hd.2
      rw [hpolls j] at hv
      exact hv
    · rfl
  have miss : (∀ j, j < 101 → ¬ delivers tr (sendNTPPacket c) j) →
      ∃ c1, forceUpdate tr c = some (c1, false)
        ∧ c1.polls = c.polls + 102
        ∧ c1.m_packetBuffer = (afterPolls tr 102 (sendNTPPacket c)).m_packetBuffer
        ∧ c1.m_currentEpoc = c.m_currentEpoc ∧ c1.m_lastUpdate = c.m_lastUpdate := by
    intro hno
    have hskip : ∀ i, i < 101 → (pollStep tr (afterPolls tr i (sendNTPPacket c))).2 = 0 := by
      intro i hi
      by_contra hne
      exact hno i hi ((delivers_iff tr hcb _ i).2 hne)
    have hf := forceUpdate_of_miss tr c hskip
    refine ⟨afterPolls tr 102 (sendNTPPacket c), hf, hpolls 102, rfl, ?_, ?_⟩
    · rw [afterPolls_frame, sendNTPPacket_frame]
    · rw [afterPolls_frame, sendNTPPacket_frame]
  refine ⟨⟨?_, ?_⟩, hit, miss⟩
  · rintro ⟨c1, h1⟩
    by_contra hno
    obtain ⟨c2, h2, -⟩ := miss (fun j hj hd => hno ⟨j, hj, hd⟩)
    rw [h1] at h2
    simp at h2
  · intro hex
    have hex2 : ∃ j, j < 101 ∧ delivers tr (sendNTPPacket c) j := hex
    classical
    obtain ⟨hj, hd⟩ := Nat.find_spec hex2
    obtain ⟨c1, h1, -⟩ := hit (Nat.find hex2) hj hd (fun i hi hdi =>
      Nat.find_min hex2 hi ⟨lt_trans hi hj, hdi⟩)
    exact ⟨c1, h1⟩

theorem transportThird_nonneg (ntpSecs : Nat) (i : Nat) : 0 ≤ (transportThird ntpSecs i).cb := by
  unfold transportThird
  split_ifs <;> simp

set_option maxRecDepth 1000000 in
/-- The poll budget on two transports.  An echo of the request on poll 1 and
a response for epoch 1700000000 on poll 3: the call returns true after 3
polls with that epoch.  A response for epoch 1600000000 on poll 102 only: it
is read into the buffer, the call returns false and the epoch 1700000000
stays. -/
theorem forceUpdate_first_valid_witness :
    (forceUpdate (transportThird (1700000000 + SEVENZYYEARS)) clientFresh).map
        (fun r => (r.2, r.1.polls, r.1.m_currentEpoc)) = some (true, 3, 1700000000)
      ∧ (∃ c1, forceUpdate (transportThird (1700000000 + SEVENZYYEARS)) clientFresh
            = some (c1, true)
          ∧ c1.polls = clientFresh.polls + (2 + 1)
          ∧ c1.m_packetBuffer
              = readInto (afterPolls (transportThird (1700000000 + SEVENZYYEARS)) 2
                    (sendNTPPacket clientFresh)).m_packetBuffer
                  (transportThird (1700000000 + SEVENZYYEARS) (clientFresh.polls + 2)).data
                  NTP_PACKET_SIZE
          ∧ isValid c1.m_packetBuffer = true
          ∧ c1.m_currentEpoc = sub32 (secsSince1900 c1.m_packetBuffer) SEVENZYYEARS)
      ∧ (forceUpdate (transportAt 101 (1600000000 + SEVENZYYEARS)) clientSynced).map
          (fun r => (r.2, r.1.polls, r.1.m_currentEpoc, r.1.m_packetBuffer))
          = some (false, 102, 1700000000, responsePacket (1600000000 + SEVENZYYEARS))
      ∧ isValid (responsePacket (1600000000 + SEVENZYYEARS)) = true :=
  ⟨by decide,
   (forceUpdate_first_valid (transportThird (1700000000 + SEVENZYYEARS))
      (transportThird_nonneg _) clientFresh).2.1 2 (by decide) (by decide) (by decide),
   by decide, by decide⟩

theorem isValid_readInto_request (buf : List Nat) :
    isValid (readInto buf requestPacket NTP_PACKET_SIZE) = false := by
  simp [readInto, requestPacket, NTP_PACKET_SIZE, isValid, byteAt]

theorem pollStep_echo (c : Client) : (pollStep transportEcho c).2 = 0 := by
  have h := isValid_readInto_request c.m_packetBuffer
  simp only [pollStep, delay, transportEcho]
  rw [if_pos (by decide)]
  simp only [h, Bool.not_false, if_true]

/-- C20: the request built by `sendNTPPacket` fails `isValid`, and under a
transport that echoes it on every poll `forceUpdate` returns false with
`m_currentEpoc` and `m_lastUpdate` unchanged, for every client state. -/
theorem forceUpdate_rejects_echo (c : Client) :
    (sendNTPPacket c).sent = c.sent ++ [requestOf c]
      ∧ (requestOf c).payload = requestPacket
      ∧ isValid requestPacket = false
      ∧ isValid (sendNTPPacket c).m_packetBuffer = false
      ∧ ∃ c1, forceUpdate transportEcho c = some (c1, false)
          ∧ c1.m_currentEpoc = c.m_currentEpoc ∧ c1.m_lastUpdate = c.m_lastUpdate := by
  refine ⟨by rw [sendNTPPacket_frame]; rfl, rfl, by decide, ?_, ?_⟩
  · rw [sendNTPPacket_buffer]
    simp [requestPacket, isValid, byteAt]
  · have hf := forceUpdate_of_miss transportEcho c (fun i _ => pollStep_echo _)
    refine ⟨_, hf, ?_, ?_⟩
    · rw [afterPolls_frame, sendNTPPacket_frame]
    · rw [afterPolls_frame, sendNTPPacket_frame]

theorem byteAt_set_ne (p : List Nat) (j i v : Nat) (h : i ≠ j) :
    byteAt (p.set j v) i = byteAt p i := by
  simp [byteAt, List.getD_eq_getElem?_getD, List.getElem?_set_ne (Ne.symm h)]

/-- C18: two packets that agree on every byte except byte 23 get the same
answer from `isValid`; on a packet whose byte 0 is a byte, the answer is true
exactly when the four header conditions hold and bytes 16 to 22 are not all
zero. -/
theorem isValid_ignores_byte23 (p q : List Nat)
    (h : ∀ i, i ≠ 23 → byteAt p i = byteAt q i) :
    isValid p = isValid q
      ∧ (byteAt p 0 < 256 →
          (isValid p = true ↔
            leapIndicator p ≠ 3 ∧ version p ≥ 4 ∧ mode p = 4
            ∧ 1 ≤ stratum p ∧ stratum p ≤ 15
            ∧ ¬ (byteAt p 16 = 0 ∧ byteAt p 17 = 0 ∧ byteAt p 18 = 0 ∧ byteAt p 19 = 0
                ∧ byteAt p 20 = 0 ∧ byteAt p 21 = 0 ∧ byteAt p 22 = 0))) := by
  refine ⟨?_, fun h0 => isValid_iff p h0⟩
  simp only [isValid, h 0 (by decide), h 1 (by decide), h 16 (by decide), h 17 (by decide),
    h 18 (by decide), h 19 (by decide), h 20 (by decide), h 21 (by decide), h 22 (by decide)]

/-- C18 on a valid response and the same response with byte 23 cleared and
with byte 23 set to 255: all three are accepted. -/
theorem isValid_ignores_byte23_witness :
    byteAt (responsePacket SEVENZYYEARS) 23 = 8
      ∧ isValid (responsePacket SEVENZYYEARS) = true
      ∧ isValid ((responsePacket SEVENZYYEARS).set 23 0) = isValid (responsePacket SEVENZYYEARS)
      ∧ isValid ((responsePacket SEVENZYYEARS).set 23 255)
          = isValid (responsePacket SEVENZYYEARS) :=
  ⟨by decide, by decide,
   (isValid_ignores_byte23 _ _ (fun i hi => byteAt_set_ne _ 23 i 0 hi)).1,
   (isValid_ignores_byte23 _ _ (fun i hi => byteAt_set_ne _ 23 i 255 hi)).1⟩

set_option maxRecDepth 1000000 in
/-- C11: the code departs from the claim on every success; here the request
leaves at counter reading 1000 and the response is accepted on poll `k = 1`
at reading 1010: the claim gives `1010 - 10 * 1 = 1000`, `forceUpdate` stores
`1010 - 10 * (1 + 1) = 990`. -/
theorem forceUpdate_lastUpdate_ten_ms_early :
    millis clientFresh = 1000
      ∧ (forceUpdate (transportOnce (1700000000 + SEVENZYYEARS)) clientFresh).map
          (fun r => (r.2, r.1.polls - clientFresh.polls, millis r.1, r.1.m_lastUpdate))
          = some (true, 1, 1010, 990)
      ∧ sub32 1010 (10 * 1) = 1000
      ∧ sub32 1010 (10 * (1 + 1)) = 990 := by
  decide

/-- What `forceUpdate` stores on success after `k` polls, for every state and
transport: the reading at acceptance less `10 * (k + 1)` ms, which is the
reading at the start of the call less 10 ms. -/
theorem forceUpdate_true_lastUpdate (tr : Transport) (c c1 : Client)
    (h : forceUpdate tr c = some (c1, true)) :
    ∃ k, 1 ≤ k ∧ k ≤ 101 ∧ c1.polls = c.polls + k ∧ c1.clock = c.clock + 10 * k
      ∧ c1.m_lastUpdate = sub32 (millis c1) (10 * (k + 1))
      ∧ c1.m_lastUpdate = sub32 (millis c) 10 := by
  obtain ⟨k, k1, k2, hk⟩ := forceUpdate_true tr c c1 h
  refine ⟨k, k1, k2, by rw [hk], by rw [hk], ?_, ?_⟩
  · rw [hk]
    simp only [millis]
  · rw [hk]
    simp only [sub32, millis, U32]
    omega

set_option maxRecDepth 1000000 in
/-- C16, as the claim states it, fails: on a fresh client, whose transport
was never opened, `forceUpdate` sends the request and returns with
`m_udpSetup` still false and the transport still closed. -/
theorem forceUpdate_leaves_transport_closed :
    clientFresh.m_udpSetup = false ∧ clientFresh.udpPort = none
      ∧ (forceUpdate transportSilent clientFresh).map
          (fun r => (r.1.m_udpSetup, r.1.udpPort, r.1.sent))
          = some (false, none, [requestOf clientFresh]) := by
  decide

/-- C16, amended: it is `update()` that ensures the transport is started.
When a synchronization is due and `m_udpSetup` is false, `update()` runs
`forceUpdate` on the state left by `begin()`, in which the transport is open
on `NTP_DEFAULT_LOCAL_PORT`, and returns with `m_udpSetup` true and one
request sent.  `forceUpdate` itself never changes `m_udpSetup`, `m_port` or
the state of the transport. -/
theorem update_opens_transport (tr : Transport) (c : Client) :
    (∀ c1 b, forceUpdate tr c = some (c1, b) →
        c1.m_udpSetup = c.m_udpSetup ∧ c1.udpPort = c.udpPort ∧ c1.m_port = c.m_port)
      ∧ (updateDue c → c.m_udpSetup = false →
          update tr c = forceUpdate tr (begin c NTP_DEFAULT_LOCAL_PORT)
          ∧ (begin c NTP_DEFAULT_LOCAL_PORT).udpPort = some NTP_DEFAULT_LOCAL_PORT
          ∧ (begin c NTP_DEFAULT_LOCAL_PORT).sent = c.sent
          ∧ ∃ c1 b, update tr c = some (c1, b)
              ∧ c1.m_udpSetup = true ∧ c1.udpPort = some NTP_DEFAULT_LOCAL_PORT
              ∧ (c.m_port = NTP_DEFAULT_LOCAL_PORT → c1.udpPort = some c.m_port)
              ∧ c1.sent = c.sent ++ [requestOf c]) := by
  have frame : ∀ (c0 c1 : Client) (b : Bool), forceUpdate tr c0 = some (c1, b) →
      c1.m_udpSetup = c0.m_udpSetup ∧ c1.udpPort = c0.udpPort ∧ c1.m_port = c0.m_port := by
    intro c0 c1 b h
    cases b with
    | false =>
      have hf := forceUpdate_false tr c0 c1 h
      refine ⟨?_, ?_, ?_⟩ <;> rw [hf]
    | true =>
      obtain ⟨k, -, -, hk⟩ := forceUpdate_true tr c0 c1 h
      refine ⟨?_, ?_, ?_⟩ <;> rw [hk]
  refine ⟨frame c, ?_⟩
  intro hdue hset
  have hu : update tr c = forceUpdate tr (begin c NTP_DEFAULT_LOCAL_PORT) := by
    rw [update_due tr c hdue, hset]
    rfl
  obtain ⟨c1, b, h1, hs⟩ := update_due_sends tr c hdue
  have h2 := h1
  rw [hu] at h2
  obtain ⟨f1, f2, -⟩ := frame _ c1 b h2
  refine ⟨hu, rfl, rfl, c1, b, h1, ?_, ?_, ?_, hs⟩
  · rw [f1]; rfl
  · rw [f2]; rfl
  · intro hp
    rw [f2, hp]
    rfl

set_option maxRecDepth 1000000 in
/-- C16 amended, on a fresh client: `update()` leaves `m_udpSetup` true, the
transport open on port 1337 and one request sent. -/
theorem update_opens_transport_witness :
    clientFresh.m_udpSetup = false
      ∧ update transportSilent clientFresh
          = forceUpdate transportSilent (begin clientFresh NTP_DEFAULT_LOCAL_PORT)
      ∧ (update transportSilent clientFresh).map
          (fun r => (r.1.m_udpSetup, r.1.udpPort, r.1.sent.length)) = some (true, some 1337, 1) :=
  ⟨by decide,
   ((update_opens_transport transportSilent clientFresh).2 (by decide) (by decide)).1,
   by decide⟩

set_option maxRecDepth 1000000 in
/-- C17: the code departs from the claim when the transport never delivers a
datagram: `forceUpdate` sends one request and returns false, but only after
102 polls and 1020 ms; and a response that arrives on poll 101, 1010 ms after
the request, is still accepted. -/
theorem forceUpdate_polls_102_times :
    (forceUpdate transportSilent clientFresh).map
        (fun r => (r.2, r.1.polls - clientFresh.polls, r.1.clock - clientFresh.clock,
          r.1.sent.length - clientFresh.sent.length)) = some (false, 102, 1020, 1)
      ∧ (forceUpdate (transportAt 100 (1700000000 + SEVENZYYEARS)) clientFresh).map
          (fun r => (r.2, r.1.polls - clientFresh.polls, r.1.clock - clientFresh.clock))
          = some (true, 101, 1010)
      ∧ ¬ (102 ≤ 100) ∧ ¬ (1020 ≤ 1000) := by
  decide

/-! ## Clock fields and formatted output -/

/-- C14: with `t = epochTime()`, `hours()` is `(t mod 86400) / 3600`,
`minutes()` is `(t mod 3600) / 60` and `seconds()` is `t mod 60`; they lie in
0..23, 0..59 and 0..59 and add up to `t mod 86400` seconds. -/
theorem hours_minutes_seconds (c : Client) :
    hours c = ((epochTime c % 86400 / 3600 : Nat) : Int)
      ∧ minutes c = ((epochTime c % 3600 / 60 : Nat) : Int)
      ∧ seconds c = ((epochTime c % 60 : Nat) : Int)
      ∧ 0 ≤ hours c ∧ hours c ≤ 23
      ∧ 0 ≤ minutes c ∧ minutes c ≤ 59
      ∧ 0 ≤ seconds c ∧ seconds c ≤ 59
      ∧ hours c * 3600 + minutes c * 60 + seconds c = ((epochTime c % 86400 : Nat) : Int) := by
  simp only [hours, minutes, seconds]
  generalize epochTime c = t
  omega

/-- C12, as the claim states it, fails: `setEpochTime( 1000000 )` at counter
reading 5500 leaves `m_lastUpdate` at 500, and `epochTime()` read at once is
1000005, not 1000000 plus the offset 0. -/
theorem setEpochTime_keeps_stale_reading :
    millis (setEpochTime clientLate 1000000) = 5500
      ∧ (setEpochTime clientLate 1000000).m_timeOffset = 0
      ∧ (setEpochTime clientLate 1000000).m_currentEpoc = 1000000
      ∧ (setEpochTime clientLate 1000000).m_lastUpdate = 500
      ∧ epochTime (setEpochTime clientLate 1000000) = 1000005
      ∧ ¬ ((setEpochTime clientLate 1000000).m_lastUpdate
            = millis (setEpochTime clientLate 1000000))
      ∧ ¬ (epochTime (setEpochTime clientLate 1000000) = 1000000 + 0) := by
  decide

/-- C12, amended: after `setEpochTime( s )`, `s` a 32-bit value, the stored
`m_currentEpoc` is `s` and nothing else has changed, `m_lastUpdate` and the
configuration included; `epochTime()` is then `timeOffset + s +
floor(elapsed / 1000)` modulo `2 ^ 32` with `elapsed = millis() - m_lastUpdate`,
which is `timeOffset + s` while less than 1000 ms have elapsed. -/
theorem setEpochTime_spec (c : Client) (s : Nat) (hs : s < U32) :
    setEpochTime c s = { c with m_currentEpoc := s }
      ∧ (setEpochTime c s).m_currentEpoc = s
      ∧ (setEpochTime c s).m_lastUpdate = c.m_lastUpdate
      ∧ (epochTime (setEpochTime c s) : Int)
          = (c.m_timeOffset + s + (sub32 (millis c) c.m_lastUpdate / 1000 : Nat)) % 4294967296
      ∧ (sub32 (millis c) c.m_lastUpdate < 1000 →
          (epochTime (setEpochTime c s) : Int) = (c.m_timeOffset + s) % 4294967296) := by
  have e : s % U32 = s := Nat.mod_eq_of_lt hs
  have h1 : setEpochTime c s = { c with m_currentEpoc := s } := by
    simp only [setEpochTime, e]
  refine ⟨h1, by rw [h1], by rw [h1], ?_, ?_⟩
  · rw [h1]
    simp only [epochTime, add32, toU32, millis, U32]
    omega
  · intro hlt
    rw [h1]
    simp only [epochTime, add32, toU32, millis, U32] at *
    omega

/-- C12 amended, on `clientSynced`, 500 ms after its capture reading:
`setEpochTime( 1000000 )` is read back as 1000000. -/
theorem setEpochTime_spec_witness :
    (setEpochTime clientSynced 1000000).m_currentEpoc = 1000000
      ∧ (setEpochTime clientSynced 1000000).m_lastUpdate = 500
      ∧ (epochTime (setEpochTime clientSynced 1000000) : Int) = (0 + 1000000) % 4294967296 :=
  ⟨(setEpochTime_spec clientSynced 1000000 (by decide)).2.1,
   (setEpochTime_spec clientSynced 1000000 (by decide)).2.2.1,
   (setEpochTime_spec clientSynced 1000000 (by decide)).2.2.2.2 (by decide)⟩

set_option maxRecDepth 100000 in
theorem pad_twoDigits : ∀ n, n < 100 →
    (if n < 10 then "0" ++ decimal n else decimal n) = twoDigits n := by
  decide

set_option maxRecDepth 100000 in
theorem decimal_year : ∀ k, k < 137 → decimal (1970 + k) = fourDigits (1970 + k) := by
  decide

/-- For a non-zero `secs`, `formattedTime` is a function of `secs` alone. -/
theorem formattedTime_of_secs (c : Client) (secs : Nat) (h0 : secs ≠ 0) :
    formattedTime c secs
      = twoDigits (secs % 86400 / 3600) ++ ":" ++ twoDigits (secs % 3600 / 60) ++ ":"
          ++ twoDigits (secs % 60) := by
  have hb : (secs != 0) = true := by simpa using h0
  simp only [formattedTime, hb, if_true]
  rw [pad_twoDigits _ (by omega), pad_twoDigits _ (by omega), pad_twoDigits _ (by omega)]

/-- For a non-zero `secs`, `date` does not read the client. -/
theorem date_independent (c1 c2 : Client) (secs : Nat) (h0 : secs ≠ 0) :
    date c1 secs = date c2 secs := by
  rw [date_of_day c1 secs _ h0 rfl, date_of_day c2 secs _ h0 rfl]

set_option maxRecDepth 100000 in
/-- The result of `date` on a non-zero 32-bit `secs`: a year from 1970 to
2106, a month from 1 to 12 and a day from 1 to 31. -/
theorem date_range (c : Client) (secs : Nat) (h0 : secs ≠ 0) (h32 : secs < U32) :
    ∃ y m d, date c secs = some (y, m, d)
      ∧ 1970 ≤ y ∧ y ≤ 2106 ∧ 1 ≤ m ∧ m ≤ 12 ∧ 1 ≤ d ∧ d ≤ 31 := by
  have hn : secs / 86400 ≤ 49710 := by
    simp only [U32] at h32
    omega
  rw [date_of_day c secs (secs / 86400) h0 rfl]
  generalize secs / 86400 = n at hn ⊢
  have hD0 : daysBeforeYear 1970 = 0 := by decide
  obtain ⟨y1, g1, g2, g3, g4⟩ := yearLoop_spec n (by simp only [U32]; omega) (n + 1) 1970
    (le_refl _) (by omega) (by omega)
  rw [hD0] at g1
  have hs := daysBeforeYear_succ y1 g2
  have hyl : (if LEAP_YEAR y1 then 366 else 365) ≤ 366 := by split_ifs <;> omega
  have hdoy : sub32 n (sub32 (daysBeforeYear (y1 + 1)) (if LEAP_YEAR y1 then 366 else 365))
      = n - daysBeforeYear y1 := by
    rw [hs]
    simp only [sub32, U32]
    omega
  have hlt : n - daysBeforeYear y1 < (if LEAP_YEAR y1 then 366 else 365) := by omega
  have hok := monthLoopOk_all (LEAP_YEAR y1) (n - daysBeforeYear y1) hlt
  unfold monthLoopOk at hok
  rw [← monthLoop_congr y1 (sampleYear (LEAP_YEAR y1)) (LEAP_YEAR_sampleYear _).symm] at hok
  have hy : y1 ≤ 2106 := by
    unfold daysBeforeYear at g3
    omega
  rw [g1]
  simp only [hdoy]
  cases hm : monthLoop y1 13 0 (n - daysBeforeYear y1) with
  | none => rw [hm] at hok; simp at hok
  | some pr =>
    obtain ⟨monthInt, r⟩ := pr
    rw [hm] at hok
    simp only [Bool.and_eq_true, decide_eq_true_eq, beq_iff_eq] at hok
    obtain ⟨⟨k1, k2⟩, k3⟩ := hok
    have hr : r < 31 := by
      have : gregorianMonthLength (sampleYear (LEAP_YEAR y1)) (monthInt + 1) ≤ 31 := by
        unfold gregorianMonthLength
        split_ifs <;> omega
      omega
    refine ⟨y1, monthInt + 1, r + 1, ?_, g2, hy, by omega, by omega, by omega, by omega⟩
    dsimp only
    rw [Nat.mod_eq_of_lt (show y1 < 65536 by omega),
      Nat.mod_eq_of_lt (show monthInt + 1 < 256 by omega),
      Nat.mod_eq_of_lt (show r + 1 < 256 by omega)]

/-- The shape of `formattedDate` on a non-zero 32-bit `secs`. -/
theorem formattedDate_of_secs (c : Client) (secs : Nat) (h0 : secs ≠ 0) (h32 : secs < U32) :
    ∃ y m d, date c secs = some (y, m, d) ∧ 1970 ≤ y ∧ y ≤ 2106
      ∧ formattedDate c secs
          = some (fourDigits y ++ "-" ++ twoDigits m ++ "-" ++ twoDigits d ++ "T"
              ++ (twoDigits (secs % 86400 / 3600) ++ ":" ++ twoDigits (secs % 3600 / 60) ++ ":"
                ++ twoDigits (secs % 60)) ++ "Z") := by
  obtain ⟨y, m, d, hd, y1, y2, m1, m2, d1, d2⟩ := date_range c secs h0 h32
  refine ⟨y, m, d, hd, y1, y2, ?_⟩
  have hy : decimal y = fourDigits y := by
    have := decimal_year (y - 1970) (by omega)
    rwa [show 1970 + (y - 1970) = y by omega] at this
  simp only [formattedDate, hd]
  rw [pad_twoDigits m (by omega), pad_twoDigits d (by omega), hy,
    formattedTime_of_secs c secs h0]

/-- C13, as the claim states it, fails for the default `secs = 0`: with
epoch 1700000000 stored, `formattedDate()` is `2023-11-14T22:13:20Z` under
offset 0 and `2023-11-14T23:13:20Z` under offset 3600. -/
theorem formattedDate_default_follows_offset :
    formattedDate (setTimeOffset clientSynced 0) 0 = some "2023-11-14T22:13:20Z"
      ∧ formattedDate (setTimeOffset clientSynced 3600) 0 = some "2023-11-14T23:13:20Z"
      ∧ formattedDate (setTimeOffset clientSynced 0) 0
          ≠ formattedDate (setTimeOffset clientSynced 3600) 0 := by
  decide

/-- C13, amended: for every state, every non-zero 32-bit `secs` and every two
values of `timeOffset`, `formattedDate( secs )` returns one and the same
string. -/
theorem formattedDate_offset_independent (c : Client) (o1 o2 : Int) (secs : Nat)
    (h0 : secs ≠ 0) (h32 : secs < U32) :
    ∃ s, formattedDate (setTimeOffset c o1) secs = some s
      ∧ formattedDate (setTimeOffset c o2) secs = some s := by
  obtain ⟨y, m, d, hd, -, -, hf⟩ := formattedDate_of_secs (setTimeOffset c o1) secs h0 h32
  obtain ⟨y2, m2, d2, hd2, -, -, hf2⟩ := formattedDate_of_secs (setTimeOffset c o2) secs h0 h32
  rw [date_independent (setTimeOffset c o2) (setTimeOffset c o1) secs h0, hd] at hd2
  simp only [Option.some.injEq, Prod.mk.injEq] at hd2
  obtain ⟨rfl, rfl, rfl⟩ := hd2
  exact ⟨_, hf, hf2⟩

set_option maxRecDepth 100000 in
/-- C13 amended, at `secs = 1709164800` under offsets 0 and 3600: both
strings are `2024-02-29T00:00:00Z`. -/
theorem formattedDate_offset_independent_witness :
    formattedDate (setTimeOffset clientSynced 0) 1709164800 = some "2024-02-29T00:00:00Z"
      ∧ ∃ s, formattedDate (setTimeOffset clientSynced 0) 1709164800 = some s
          ∧ formattedDate (setTimeOffset clientSynced 3600) 1709164800 = some s :=
  ⟨by decide,
   formattedDate_offset_independent clientSynced 0 3600 1709164800 (by decide) (by decide)⟩

/-- C15: for every non-zero 32-bit `secs`, `formattedTime( secs )` is the
8-character string `HH:MM:SS` and `formattedDate( secs )` the 20-character
string `YYYY-MM-DDTHH:MM:SSZ`, with the year, month and day of `date( secs )`,
`HH = (secs mod 86400) / 3600`, `MM = (secs mod 3600) / 60`, `SS = secs mod 60`,
the year on four digits and every other field on two, zero-padded. -/
theorem formatted_spec (c : Client) (secs : Nat) (h0 : secs ≠ 0) (h32 : secs < U32) :
    formattedTime c secs
        = twoDigits (secs % 86400 / 3600) ++ ":" ++ twoDigits (secs % 3600 / 60) ++ ":"
            ++ twoDigits (secs % 60)
      ∧ (formattedTime c secs).length = 8
      ∧ ∃ y m d s, date c secs = some (y, m, d) ∧ 1000 ≤ y ∧ y ≤ 9999
          ∧ formattedDate c secs = some s
          ∧ s = fourDigits y ++ "-" ++ twoDigits m ++ "-" ++ twoDigits d ++ "T"
              ++ formattedTime c secs ++ "Z"
          ∧ s.length = 20 := by
  have ht := formattedTime_of_secs c secs h0
  obtain ⟨y, m, d, hd, y1, y2, hf⟩ := formattedDate_of_secs c secs h0 h32
  refine ⟨ht, by rw [ht]; rfl, y, m, d, _, hd, by omega, by omega, hf, by rw [ht], rfl⟩

set_option maxRecDepth 100000 in
/-- C15 at `secs = 1709197509`: the strings are `09:05:09` and
`2024-02-29T09:05:09Z`. -/
theorem formatted_spec_witness :
    formattedTime clientFresh 1709197509 = "09:05:09"
      ∧ formattedDate clientFresh 1709197509 = some "2024-02-29T09:05:09Z"
      ∧ (formattedTime clientFresh 1709197509).length = 8 :=
  ⟨by decide, by decide, (formatted_spec clientFresh 1709197509 (by decide) (by decide)).2.1⟩

/-! ## Datagrams shorter than the buffer -/

/-- A datagram of at least 48 bytes replaces the whole 48-byte buffer. -/
theorem readInto_full (buf data : List Nat) (hb : buf.length = NTP_PACKET_SIZE)
    (hd : NTP_PACKET_SIZE ≤ data.length) :
    readInto buf data NTP_PACKET_SIZE = (data.take NTP_PACKET_SIZE).map (fun b => b % 256) := by
  unfold readInto
  rw [Nat.min_eq_left hd, List.drop_eq_nil_of_le (le_of_eq hb), List.append_nil]

set_option maxRecDepth 1000000 in
/-- C19: the code departs from the claim when a datagram shorter than 48
bytes follows a rejected packet.  `parsePacket()` returns 48, 2, 0, 0, ...;
neither delivered datagram passes `isValid`, yet the two bytes of the second,
read over the start of the first, leave a buffer that `isValid` accepts:
`forceUpdate` returns true on poll 2 and replaces the stored epoch 1700000000
by 1234567890, the transmit epoch of the rejected packet. -/
theorem forceUpdate_accepts_short_datagram :
    (transportShort 0).cb = 48 ∧ (transportShort 0).data = packetUnsynchronized
      ∧ (transportShort 1).cb = 2 ∧ (transportShort 1).data = datagramShort
      ∧ IsPacket packetUnsynchronized
      ∧ isValid packetUnsynchronized = false ∧ isValid datagramShort = false
      ∧ secsSince1900 packetUnsynchronized = 1234567890 + SEVENZYYEARS
      ∧ clientSynced.m_currentEpoc = 1700000000
      ∧ (forceUpdate transportShort clientSynced).map
          (fun r => (r.2, r.1.polls, r.1.m_currentEpoc, r.1.m_packetBuffer))
          = some (true, 2, 1234567890, datagramShort ++ packetUnsynchronized.drop 2) := by
  decide

end NTPClient
